import Mathlib

/-!
Shallow embedding of the TdF-pool scoring engine.

Sources embedded here:
* `src/python_scripts/participant_selections_active.py` — the roster
  manager (`manage_rosters`): per-stage DNF removal and one-time reserve
  substitution.
* `src/python_scripts/calculate_points_new.py` — rank/jersey point tables,
  `get_stage_points_for_rank`, `calculate_rider_stage_points`, and the
  stateful `TDFDataProcessor.process_stage` /
  `update_leaderboard_after_stage` pipeline.
* `src/python_scripts/calculate_points.py` — the legacy leaderboard
  fragment of `calculate_participant_scores_and_contributions`
  (rank assignment and rank change).

Python `dict`s are modelled as insertion-ordered association lists,
Python `int`s as `Int`, JSON `null` as `Option.none`.  Stage keys
`"stage_k"` are modelled by the number `k` (the naming is injective).
-/

namespace TdFPool

/-! ## Python dict model: insertion-ordered association lists -/

/-- Python `d.get(k)`: first (and, for dicts built by `dictSet`, only)
binding of `k`. -/
def dictGet {κ α : Type} [DecidableEq κ] (d : List (κ × α)) (k : κ) :
    Option α :=
  match d with
  | [] => none
  | (k', v) :: rest => if k' = k then some v else dictGet rest k

/-- Python `d[k] = v`: update in place if the key exists, else append
(dicts keep insertion order). -/
def dictSet {κ α : Type} [DecidableEq κ] (d : List (κ × α)) (k : κ) (v : α) :
    List (κ × α) :=
  match d with
  | [] => [(k, v)]
  | (k', v') :: rest =>
    if k' = k then (k', v) :: rest else (k', v') :: dictSet rest k v

/-- Python `d.get(k, v0)`. -/
def dictGetD {κ α : Type} [DecidableEq κ] (d : List (κ × α)) (k : κ)
    (v₀ : α) : α :=
  (dictGet d k).getD v₀

/-- Python `d.keys()` in insertion order. -/
def dictKeys {κ α : Type} (d : List (κ × α)) : List κ :=
  d.map Prod.fst

/-! ## Stable descending sort (Python `list.sort(key=…, reverse=True)`) -/

/-- Insert `x` in front of the first element whose key is `≤ key x`;
elements with strictly greater key stay in front, equal keys keep the
original (stable) order. -/
def stableInsertDesc {α : Type} (key : α → Int) (x : α) :
    List α → List α
  | [] => [x]
  | y :: ys =>
    if key y ≤ key x then x :: y :: ys else y :: stableInsertDesc key x ys

/-- Stable sort, descending by `key`; computes the same list as CPython's
stable `sort(key=…, reverse=True)`. -/
def sortByDesc {α : Type} (key : α → Int) : List α → List α
  | [] => []
  | x :: xs => stableInsertDesc key x (sortByDesc key xs)

/-! ## Participant selection records (JSON objects, only the used keys) -/

/-- One entry of `participant_selections_anon.json` or of a per-stage
`participant_selection_active_stage_k.json` file.  `none` models an
absent key (`dict.get` default). -/
structure SelEntry where
  name : Option String
  directie : Option String
  main_riders : Option (List String)
  reserve_rider : Option String
  active_riders : Option (List String)
deriving Repr, DecidableEq

/-! ## Roster manager (`participant_selections_active.py`) -/

/-- A record of `substitution_log`
(`participant_selections_active.py:129-142`). -/
structure SubEvent where
  stage : Nat
  out_rider : String
  in_rider : Option String
deriving Repr, DecidableEq

/-- The mutable per-participant roster state of `manage_rosters`. -/
structure RosterParticipant where
  active_riders : List String
  reserve_riders : List String
  substitution_log : List SubEvent
deriving Repr, DecidableEq

/-- Pre-processing of a raw selection entry
(`participant_selections_active.py:35-50`): `main_riders` becomes
`active_riders`, the optional `reserve_rider` string becomes a list of
zero or one names (falsy values give the empty list), and the
substitution log starts empty. -/
def preprocess_participant (e : SelEntry) : RosterParticipant :=
  { active_riders := e.main_riders.getD []
  , reserve_riders :=
      match e.reserve_rider with
      | some r => if r = "" then [] else [r]
      | none => []
  , substitution_log := [] }

/-- The substitution loop of `manage_rosters`
(`participant_selections_active.py:124-142`): for each rider lost this
stage, pop the single reserve if one is left (logging the substitution),
else log the loss with `in_rider = None`. -/
def apply_substitutions (stage_num : Nat) :
    List String → List String → List String → List SubEvent →
      List String × List String × List SubEvent
  | [], reserve, newActive, log => (reserve, newActive, log)
  | d :: rest, reserve, newActive, log =>
    match reserve with
    | r :: rs =>
      apply_substitutions stage_num rest rs (newActive ++ [r])
        (log ++ [⟨stage_num, d, some r⟩])
    | [] =>
      apply_substitutions stage_num rest [] newActive
        (log ++ [⟨stage_num, d, none⟩])

/-- One stage of `manage_rosters` for one participant
(`participant_selections_active.py:107-146`): split the active roster
into kept riders and riders in the stage's DNF/DNS/OTL/DSQ set, then run
the substitution loop over the lost riders in roster order. -/
def update_participant_roster (stage_num : Nat) (dnf : List String)
    (p : RosterParticipant) : RosterParticipant :=
  let lost := p.active_riders.filter (fun r => decide (r ∈ dnf))
  let kept := p.active_riders.filter (fun r => !decide (r ∈ dnf))
  let res :=
    apply_substitutions stage_num lost p.reserve_riders kept
      p.substitution_log
  { active_riders := res.2.1
  , reserve_riders := res.1
  , substitution_log := res.2.2 }

/-- The stage loop of `manage_rosters` for one participant
(`participant_selections_active.py:65-151`); `none` models a stage whose
results file is missing or unparsable, which leaves the roster unchanged
(lines 77-95). -/
def run_roster (p : RosterParticipant)
    (stages : List (Nat × Option (List String))) : RosterParticipant :=
  stages.foldl
    (fun p s =>
      match s.2 with
      | some dnf => update_participant_roster s.1 dnf p
      | none => p)
    p

/-! ## Points calculation (`calculate_points_new.py`) -/

/-- The `SCORING_RULES` table (`calculate_points_new.py:27-33`). -/
def SCORING_RULES : List (String × Int) :=
  [("yellow_jersey", 15), ("green_jersey", 10), ("polka_dot_jersey", 10),
   ("white_jersey", 10), ("combative_rider", 5)]

/-- Stage-finish points for an integer rank
(`calculate_points_new.py:105-109`; identically
`_get_stage_points_for_rank`, `calculate_points.py:76-79`). -/
def get_stage_points_for_rank (rank : Int) : Int :=
  if 1 ≤ rank ∧ rank ≤ 20 then (if rank = 1 then 25 else 20 - (rank - 1))
  else 0

/-- A JSON `rank` field as it reaches `get_stage_points_for_rank`: an
integer, a (possibly non-numeric) string, or `null`. -/
inductive PyRank where
  | int (n : Int)
  | str (s : String)
  | null
deriving Repr, DecidableEq

/-- The dynamic call `get_stage_points_for_rank(rank)`: in Python 3 the
comparison `1 <= rank` on line 107 raises `TypeError` unless `rank` is a
number, so a string or `None` rank aborts instead of scoring; there is
no digit-extraction fallback anywhere in the repository. -/
def get_stage_points_for_rank_dyn : PyRank → Except String Int
  | .int n => .ok (get_stage_points_for_rank n)
  | .str _ => .error "TypeError"
  | .null => .error "TypeError"

/-- A row of `top_20_finishers` with a well-formed integer rank. -/
structure FinisherRow where
  rider_name : String
  rank : Int
deriving Repr, DecidableEq

/-- A row of `top_20_finishers` with an arbitrary JSON rank field. -/
structure FinisherRowDyn where
  rider_name : String
  rank : PyRank
deriving Repr, DecidableEq

/-- The per-rider breakdown produced by `calculate_rider_stage_points`
(`calculate_points_new.py:113-117`). -/
structure RiderBreakdown where
  stage_finish_points : Int
  jersey_points : List (String × Int)
  stage_total : Int
deriving Repr, DecidableEq

/-- The `defaultdict` default value (`calculate_points_new.py:113-117`). -/
def RiderBreakdown.zero : RiderBreakdown :=
  { stage_finish_points := 0, jersey_points := [], stage_total := 0 }

/-- The stage-finish loop of `calculate_rider_stage_points`
(`calculate_points_new.py:120-125`): each row overwrites the rider's
`stage_finish_points` and `stage_total` with the rank points. -/
def add_finish_points (d : List (String × RiderBreakdown))
    (rows : List FinisherRow) : List (String × RiderBreakdown) :=
  rows.foldl
    (fun d row =>
      let points := get_stage_points_for_rank row.rank
      let cur := dictGetD d row.rider_name RiderBreakdown.zero
      dictSet d row.rider_name
        { cur with stage_finish_points := points, stage_total := points })
    d

/-- The jersey loop of `calculate_rider_stage_points`
(`calculate_points_new.py:128-134`): look the jersey up in
`SCORING_RULES` under `f"{jersey_type}_jersey"` (except for the literal
key `"combative_rider"`), and award the points to a truthy holder that
is not `"N/A"`. -/
def add_jersey_points (d : List (String × RiderBreakdown))
    (jersey_holders : List (String × String)) :
    List (String × RiderBreakdown) :=
  jersey_holders.foldl
    (fun d jh =>
      let points_key :=
        if jh.1 = "combative_rider" then jh.1 else jh.1 ++ "_jersey"
      let points := dictGetD SCORING_RULES points_key 0
      if 0 < points ∧ jh.2 ≠ "" ∧ jh.2 ≠ "N/A" then
        let cur := dictGetD d jh.2 RiderBreakdown.zero
        dictSet d jh.2
          { cur with
              jersey_points := dictSet cur.jersey_points jh.1 points
            , stage_total := cur.stage_total + points }
      else d)
    d

/-- `calculate_rider_stage_points` (`calculate_points_new.py:111-135`)
for well-formed integer ranks. -/
def calculate_rider_stage_points (stage_results : List FinisherRow)
    (jersey_holders : List (String × String)) :
    List (String × RiderBreakdown) :=
  add_jersey_points (add_finish_points [] stage_results) jersey_holders

/-- The stage-finish loop over rows with arbitrary JSON rank fields: the
first non-integer rank raises `TypeError` out of the loop. -/
def add_finish_points_dyn (d : List (String × RiderBreakdown)) :
    List FinisherRowDyn → Except String (List (String × RiderBreakdown))
  | [] => .ok d
  | row :: rest =>
    match get_stage_points_for_rank_dyn row.rank with
    | .error e => .error e
    | .ok points =>
      let cur := dictGetD d row.rider_name RiderBreakdown.zero
      add_finish_points_dyn
        (dictSet d row.rider_name
          { cur with stage_finish_points := points, stage_total := points })
        rest

/-- `calculate_rider_stage_points` on rows whose rank fields are raw
JSON values. -/
def calculate_rider_stage_points_dyn (stage_results : List FinisherRowDyn)
    (jersey_holders : List (String × String)) :
    Except String (List (String × RiderBreakdown)) :=
  (add_finish_points_dyn [] stage_results).map
    (fun d => add_jersey_points d jersey_holders)

/-! ## The stage processor (`TDFDataProcessor`, `calculate_points_new.py`) -/

/-- A scraped `stage_k.json` record, restricted to the fields
`process_stage` reads.  Each `top_…_rider` field is the `rider_name`
string when the field and its name are present (`none` models a missing
field or falsy name; `process_stage:171-180` only adds truthy names). -/
structure StageRaw where
  stage_date : Option String
  top_20_finishers : List FinisherRow
  top_gc_rider : Option String
  top_points_rider : Option String
  top_kom_rider : Option String
  top_youth_rider : Option String
  combative_rider : Option String
  dnf_riders : List String
deriving Repr, DecidableEq

/-- One optional jersey-holder binding (`calculate_points_new.py:171-180`
adds the key only for a truthy rider name). -/
def holder_entry (k : String) (v : Option String) : List (String × String) :=
  match v with
  | some s => if s = "" then [] else [(k, s)]
  | none => []

/-- The `jersey_holders` dict built by `process_stage`
(`calculate_points_new.py:170-180`), in insertion order. -/
def build_jersey_holders (sr : StageRaw) : List (String × String) :=
  holder_entry "yellow" sr.top_gc_rider ++
    holder_entry "green" sr.top_points_rider ++
    holder_entry "polka_dot" sr.top_kom_rider ++
    holder_entry "white" sr.top_youth_rider ++
    holder_entry "combative" sr.combative_rider

/-- The per-stage breakdown computed by `process_stage` for a stage
record (`calculate_points_new.py:193`). -/
def stage_rsp (sr : StageRaw) : List (String × RiderBreakdown) :=
  calculate_rider_stage_points sr.top_20_finishers (build_jersey_holders sr)

/-- One value of `riders_data[name]['stages']`
(`calculate_points_new.py:202-208`). -/
structure RiderStageEntry where
  date : String
  stage_finish_points : Int
  jersey_points : List (String × Int)
  stage_total : Int
  cumulative_total : Int
deriving Repr, DecidableEq

/-- One value of `riders_data` (`calculate_points_new.py:198`). -/
structure RiderInfo where
  total_points : Int
  stages : List (Nat × RiderStageEntry)
deriving Repr, DecidableEq

/-- A value of `participant_stage_scores`
(`calculate_points_new.py:252-256`). -/
structure PSS where
  stage_score : Int
  rider_contributions : List (String × Int)
  directie : String
deriving Repr, DecidableEq

/-- One ordered-leaderboard entry (`calculate_points_new.py:308-319`).
`overall_rank_change` is the serialized JSON value of the field; the
code of `calculate_points_new.py` always writes a number
(line 295), so `none` (JSON `null`) never occurs there. -/
structure LBEntry where
  participant_name : String
  directie_name : String
  overall_score : Int
  overall_rank : Nat
  overall_rank_change : Option Int
  stage_score : Int
  stage_rank : Nat
  stage_rider_contributions : List (String × Int)
deriving Repr, DecidableEq

/-- The mutable state of `TDFDataProcessor`
(`calculate_points_new.py:140-148`), restricted to the components the
claims are about (`stages_data` is a verbatim echo of the input and the
directie leaderboard duplicates the participant logic). -/
structure ProcState where
  riders_data : List (String × RiderInfo)
  cumulative_rider_points : List (String × Int)
  cumulative_participant_points : List (String × Int)
  leaderboard_by_stage : List (Nat × List LBEntry)
deriving Repr, DecidableEq

/-- The empty initial state (`calculate_points_new.py:142-147`). -/
def initState : ProcState :=
  { riders_data := []
  , cumulative_rider_points := []
  , cumulative_participant_points := []
  , leaderboard_by_stage := [] }

/-- The run-wide inputs of the processor: the initial participant
selections and, for each stage number, the contents of
`data/selection/participant_selection_active_stage_k.json` (`none`
models an absent file). -/
structure ProcConfig where
  participant_selections : List SelEntry
  roster_files : Nat → Option (List SelEntry)

/-- The `participant_to_directie` map built in `__init__`
(`calculate_points_new.py:154-159`): truthy names only, missing
`directie` defaults to `"Unknown"`. -/
def participant_to_directie (sels : List SelEntry) : List (String × String) :=
  sels.foldl
    (fun d e =>
      match e.name with
      | some n => if n = "" then d else dictSet d n (e.directie.getD "Unknown")
      | none => d)
    []

/-- One iteration of the first loop of `process_stage`
(`calculate_points_new.py:196-209`): create the rider record if new,
accumulate the cumulative total, and store this stage's entry. -/
def update_rider_step (stage_num : Nat) (stage_date : String)
    (st : ProcState) (kv : String × RiderBreakdown) : ProcState :=
  let rd :=
    if (dictGet st.riders_data kv.1).isSome then st.riders_data
    else dictSet st.riders_data kv.1 ⟨0, []⟩
  let newCum := dictGetD st.cumulative_rider_points kv.1 0 + kv.2.stage_total
  let info := dictGetD rd kv.1 ⟨0, []⟩
  let entry : RiderStageEntry :=
    { date := stage_date
    , stage_finish_points := kv.2.stage_finish_points
    , jersey_points := kv.2.jersey_points
    , stage_total := kv.2.stage_total
    , cumulative_total := newCum }
  { st with
      riders_data :=
        dictSet rd kv.1
          { total_points := newCum
          , stages := dictSet info.stages stage_num entry }
    , cumulative_rider_points :=
        dictSet st.cumulative_rider_points kv.1 newCum }

/-- The first loop of `process_stage` over the stage's rider breakdowns
(`calculate_points_new.py:196-209`). -/
def update_rider_data (stage_num : Nat) (stage_date : String)
    (rsp : List (String × RiderBreakdown)) (st : ProcState) : ProcState :=
  rsp.foldl (update_rider_step stage_num stage_date) st

/-- One iteration of the second loop of `process_stage`
(`calculate_points_new.py:211-223`): a rider holding a cumulative total
but absent from this stage's breakdown gets a zero-valued entry, with
the cumulative total unchanged. -/
def fill_zero_step (stage_num : Nat) (stage_date : String)
    (rsp : List (String × RiderBreakdown)) (st : ProcState)
    (kv : String × Int) : ProcState :=
  if (dictGet rsp kv.1).isSome then st
  else
    let rd :=
      if (dictGet st.riders_data kv.1).isSome then st.riders_data
      else dictSet st.riders_data kv.1 ⟨0, []⟩
    let cum := dictGetD st.cumulative_rider_points kv.1 0
    let info := dictGetD rd kv.1 ⟨0, []⟩
    let entry : RiderStageEntry :=
      { date := stage_date
      , stage_finish_points := 0
      , jersey_points := []
      , stage_total := 0
      , cumulative_total := cum }
    { st with
        riders_data :=
          dictSet rd kv.1
            { info with stages := dictSet info.stages stage_num entry } }

/-- The second loop of `process_stage`
(`calculate_points_new.py:211-223`), over the riders of the cumulative
map (which the loop body never modifies). -/
def fill_zero_entries (stage_num : Nat) (stage_date : String)
    (rsp : List (String × RiderBreakdown)) (st : ProcState) : ProcState :=
  st.cumulative_rider_points.foldl (fill_zero_step stage_num stage_date rsp) st

/-- `self.riders_data.get(rider, {}).get('stages', {}).get(f'stage_{k}',
{}).get('stage_total', 0)` (`calculate_points_new.py:247-248`). -/
def rider_stage_total_in (st : ProcState) (stage_num : Nat)
    (rider : String) : Int :=
  match dictGet st.riders_data rider with
  | some info =>
    match dictGet info.stages stage_num with
    | some e => e.stage_total
    | none => 0
  | none => 0

/-- The participant loop of `process_stage`
(`calculate_points_new.py:234-262`): for each roster entry with a truthy
name, sum this stage's `stage_total` of its `active_riders` (missing key
defaults to the empty list), record the per-rider contributions, and add
the stage score to the participant's cumulative score. -/
def compute_participant_scores (p2d : List (String × String))
    (stage_num : Nat) (roster : List SelEntry) (st : ProcState) :
    List (String × PSS) × List (String × Int) :=
  roster.foldl
    (fun acc entry =>
      match entry.name with
      | none => acc
      | some participant_name =>
        if participant_name = "" then acc
        else
          let selected_riders := entry.active_riders.getD []
          let sc :=
            selected_riders.foldl
              (fun sc rider =>
                let rider_points := rider_stage_total_in st stage_num rider
                (sc.1 + rider_points, dictSet sc.2 rider rider_points))
              ((0 : Int), ([] : List (String × Int)))
          let pss' :=
            dictSet acc.1 participant_name
              { stage_score := sc.1
              , rider_contributions := sc.2
              , directie := dictGetD p2d participant_name "Unknown" }
          let cum' :=
            dictSet acc.2 participant_name
              (dictGetD acc.2 participant_name 0 + sc.1)
          (pss', cum'))
    (([] : List (String × PSS)), st.cumulative_participant_points)

/-- Rank assignment with `enumerate` semantics
(`calculate_points_new.py:291-295`): position `i` gets rank `i + 1`, and
`overall_rank_change = prev_rank - overall_rank if prev_rank is not None
else 0` (always a number, never `null`). -/
def assign_overall_ranks (previous_ranks : List (String × Nat)) :
    Nat → List LBEntry → List LBEntry
  | _, [] => []
  | i, e :: rest =>
    { e with
        overall_rank := i + 1
      , overall_rank_change :=
          some
            (match dictGet previous_ranks e.participant_name with
             | some p => (p : Int) - ((i : Int) + 1)
             | none => 0) } ::
      assign_overall_ranks previous_ranks (i + 1) rest

/-- The `stage_ranks` dict (`calculate_points_new.py:299-301`). -/
def collect_stage_ranks (i : Nat) (acc : List (String × Nat)) :
    List LBEntry → List (String × Nat)
  | [] => acc
  | e :: rest =>
    collect_stage_ranks (i + 1) (dictSet acc e.participant_name (i + 1)) rest

/-- `update_leaderboard_after_stage` (`calculate_points_new.py:268-321`):
build one entry per cumulative participant, sort stably by overall score
descending, assign overall ranks and rank changes against the previous
stage's leaderboard, then assign stage ranks by a stable sort on the
stage score.  (The final field reordering on lines 307-319 only permutes
JSON keys and is the identity here.) -/
def update_leaderboard_after_stage (p2d : List (String × String))
    (st : ProcState) (stage_num : Nat) (pss : List (String × PSS)) :
    ProcState :=
  let leaderboard : List LBEntry :=
    st.cumulative_participant_points.map
      (fun kv =>
        { participant_name := kv.1
        , directie_name := dictGetD p2d kv.1 "Unknown"
        , overall_score := kv.2
        , overall_rank := 0
        , overall_rank_change := none
        , stage_score :=
            match dictGet pss kv.1 with
            | some s => s.stage_score
            | none => 0
        , stage_rank := 0
        , stage_rider_contributions :=
            match dictGet pss kv.1 with
            | some s => s.rider_contributions
            | none => [] })
  let sorted := sortByDesc (fun e => e.overall_score) leaderboard
  let previous_leaderboard := dictGetD st.leaderboard_by_stage (stage_num - 1) []
  let previous_ranks :=
    previous_leaderboard.foldl
      (fun d e => dictSet d e.participant_name e.overall_rank) []
  let ranked := assign_overall_ranks previous_ranks 0 sorted
  let stage_ranking := sortByDesc (fun e => e.stage_score) ranked
  let stage_ranks := collect_stage_ranks 0 [] stage_ranking
  let ordered :=
    ranked.map
      (fun e => { e with stage_rank := dictGetD stage_ranks e.participant_name 0 })
  { st with
      leaderboard_by_stage := dictSet st.leaderboard_by_stage stage_num ordered }

/-- `TDFDataProcessor.process_stage` (`calculate_points_new.py:161-266`),
with `now` standing for `datetime.now().strftime("%Y-%m-%d")` — the
fallback stage date when `stage_info` has no `date` (line 163).  The
roster file for the stage is used when present, else the initial
selections (lines 226-231). -/
def process_stage (cfg : ProcConfig) (now : String) (st : ProcState)
    (stage_num : Nat) (sr : StageRaw) : ProcState :=
  let stage_date := sr.stage_date.getD now
  let rsp := stage_rsp sr
  let st1 := update_rider_data stage_num stage_date rsp st
  let st2 := fill_zero_entries stage_num stage_date rsp st1
  let roster := (cfg.roster_files stage_num).getD cfg.participant_selections
  let p2d := participant_to_directie cfg.participant_selections
  let sc := compute_participant_scores p2d stage_num roster st2
  let st3 := { st2 with cumulative_participant_points := sc.2 }
  update_leaderboard_after_stage p2d st3 stage_num sc.1

/-- The main stage loop (`calculate_points_new.py:466-470`): the
available stages, in increasing order, processed from the empty state. -/
def process_stages (cfg : ProcConfig) (now : String)
    (stages : List (Nat × StageRaw)) : ProcState :=
  stages.foldl (fun st s => process_stage cfg now st s.1 s.2) initState

/-! ## Legacy leaderboard fragment (`calculate_points.py:196-208`) -/

/-- A legacy cumulative-leaderboard entry (`calculate_points.py:197-208`);
here `rank_change` genuinely is `None` for a participant without a
previous rank (line 208). -/
structure OldLBEntry where
  participant_name : String
  total_score : Int
  rank : Nat
  rank_change : Option Int
deriving Repr, DecidableEq

/-- Rank assignment of `calculate_participant_scores_and_contributions`
(`calculate_points.py:205-208`): `rank_change = (prev_rank - rank) if
prev_rank is not None else None`. -/
def old_assign_ranks (previous_ranks : List (String × Nat)) :
    Nat → List (String × Int) → List OldLBEntry
  | _, [] => []
  | i, kv :: rest =>
    { participant_name := kv.1
    , total_score := kv.2
    , rank := i + 1
    , rank_change :=
        match dictGet previous_ranks kv.1 with
        | some p => some ((p : Int) - ((i : Int) + 1))
        | none => none } ::
      old_assign_ranks previous_ranks (i + 1) rest

/-- The cumulative-leaderboard construction of
`calculate_participant_scores_and_contributions`
(`calculate_points.py:196-208`): sort the participant cumulative scores
descending and assign ranks and rank changes against the previous
leaderboard. -/
def old_build_leaderboard (previous : List OldLBEntry)
    (scores : List (String × Int)) : List OldLBEntry :=
  let leaderboard_sorted := sortByDesc (fun kv => kv.2) scores
  let previous_ranks :=
    previous.foldl (fun d e => dictSet d e.participant_name e.rank) []
  old_assign_ranks previous_ranks 0 leaderboard_sorted

/-! ## Dictionary lemmas -/

theorem dictGet_set_self {κ α : Type} [DecidableEq κ]
    (d : List (κ × α)) (k : κ) (v : α) :
    dictGet (dictSet d k v) k = some v := by
  induction d with
  | nil => simp [dictGet, dictSet]
  | cons hd tl ih =>
    obtain ⟨k', v'⟩ := hd
    by_cases h : k' = k <;> simp [dictGet, dictSet, h, ih]

theorem dictGet_set_ne {κ α : Type} [DecidableEq κ]
    (d : List (κ × α)) (k k' : κ) (v : α) (h : k ≠ k') :
    dictGet (dictSet d k v) k' = dictGet d k' := by
  induction d with
  | nil => simp [dictGet, dictSet, h]
  | cons hd tl ih =>
    obtain ⟨k₀, v₀⟩ := hd
    by_cases h₀ : k₀ = k <;> by_cases h₁ : k₀ = k' <;>
      simp_all [dictGet, dictSet]

theorem dictGetD_set_self {κ α : Type} [DecidableEq κ]
    (d : List (κ × α)) (k : κ) (v v₀ : α) :
    dictGetD (dictSet d k v) k v₀ = v := by
  simp [dictGetD, dictGet_set_self]

theorem dictGet_eq_none_iff {κ α : Type} [DecidableEq κ]
    (d : List (κ × α)) (k : κ) :
    dictGet d k = none ↔ k ∉ dictKeys d := by
  induction d with
  | nil => simp [dictGet, dictKeys]
  | cons hd tl ih =>
    obtain ⟨k', v'⟩ := hd
    by_cases h : k' = k <;> simp_all [dictGet, dictKeys, eq_comm]

theorem dictGet_mem {κ α : Type} [DecidableEq κ]
    {d : List (κ × α)} {k : κ} {v : α} (h : dictGet d k = some v) :
    (k, v) ∈ d := by
  induction d with
  | nil => simp [dictGet] at h
  | cons hd tl ih =>
    obtain ⟨k', v'⟩ := hd
    by_cases hk : k' = k
    · subst hk
      simp [dictGet] at h
      simp [h]
    · simp [dictGet, hk] at h
      exact List.mem_cons_of_mem _ (ih h)

theorem mem_keys_of_get {κ α : Type} [DecidableEq κ]
    {d : List (κ × α)} {k : κ} {v : α} (h : dictGet d k = some v) :
    k ∈ dictKeys d := by
  by_contra hk
  rw [← dictGet_eq_none_iff] at hk
  simp [h] at hk

theorem dictSet_append {κ α : Type} [DecidableEq κ]
    (d : List (κ × α)) (k : κ) (v : α) (h : dictGet d k = none) :
    dictSet d k v = d ++ [(k, v)] := by
  induction d with
  | nil => simp [dictSet]
  | cons hd tl ih =>
    obtain ⟨k', v'⟩ := hd
    by_cases hk : k' = k
    · subst hk; simp [dictGet] at h
    · simp [dictGet, hk] at h
      simp [dictSet, hk, ih h]

theorem dictKeys_dictSet {κ α : Type} [DecidableEq κ]
    (d : List (κ × α)) (k : κ) (v : α) :
    dictKeys (dictSet d k v) =
      if k ∈ dictKeys d then dictKeys d else dictKeys d ++ [k] := by
  induction d with
  | nil => simp [dictSet, dictKeys]
  | cons hd tl ih =>
    obtain ⟨k', v'⟩ := hd
    by_cases hk : k' = k
    · subst hk; simp [dictSet, dictKeys]
    · simp only [dictSet, if_neg hk, dictKeys, List.map_cons] at ih ⊢
      by_cases hmem : k ∈ dictKeys tl <;>
        simp_all [dictKeys, Ne.symm hk]

theorem dictKeys_set_nodup {κ α : Type} [DecidableEq κ]
    (d : List (κ × α)) (k : κ) (v : α) (h : (dictKeys d).Nodup) :
    (dictKeys (dictSet d k v)).Nodup := by
  rw [dictKeys_dictSet]
  by_cases hmem : k ∈ dictKeys d
  · simpa [hmem] using h
  · simp only [if_neg hmem, List.nodup_append, List.nodup_cons]
    refine ⟨h, by simp, ?_⟩
    intro a ha hb
    simp only [List.mem_singleton] at hb
    subst hb
    exact hmem ha

theorem dictGet_append {κ α : Type} [DecidableEq κ]
    (d₁ d₂ : List (κ × α)) (k : κ) :
    dictGet (d₁ ++ d₂) k =
      match dictGet d₁ k with
      | some v => some v
      | none => dictGet d₂ k := by
  induction d₁ with
  | nil => simp [dictGet]
  | cons hd tl ih =>
    obtain ⟨k', v'⟩ := hd
    by_cases hk : k' = k <;> simp [dictGet, hk, ih]

/-- Value-mapping over a dict, preserving keys and order. -/
def mapVals {κ α β : Type} (f : α → β) (d : List (κ × α)) : List (κ × β) :=
  d.map (fun kv => (kv.1, f kv.2))

theorem dictGet_mapVals {κ α β : Type} [DecidableEq κ]
    (f : α → β) (d : List (κ × α)) (k : κ) :
    dictGet (mapVals f d) k = (dictGet d k).map f := by
  induction d with
  | nil => simp [dictGet, mapVals]
  | cons hd tl ih =>
    obtain ⟨k', v'⟩ := hd
    by_cases hk : k' = k <;> simp [dictGet, mapVals, hk] <;> exact ih

theorem mapVals_dictSet {κ α β : Type} [DecidableEq κ]
    (f : α → β) (d : List (κ × α)) (k : κ) (v : α) :
    mapVals f (dictSet d k v) = dictSet (mapVals f d) k (f v) := by
  induction d with
  | nil => simp [dictSet, mapVals]
  | cons hd tl ih =>
    obtain ⟨k', v'⟩ := hd
    by_cases hk : k' = k <;> simp [dictSet, mapVals, hk] <;> exact ih

theorem foldl_preserve {α β : Type} (P : α → Prop) (f : α → β → α)
    (l : List β) (a₀ : α) (h₀ : P a₀)
    (h : ∀ a b, b ∈ l → P a → P (f a b)) : P (l.foldl f a₀) := by
  induction l generalizing a₀ with
  | nil => simpa using h₀
  | cons hd tl ih =>
    simp only [List.foldl_cons]
    exact ih (f a₀ hd) (h a₀ hd (by simp) h₀)
      (fun a b hb => h a b (List.mem_cons_of_mem _ hb))

theorem mem_stableInsertDesc {α : Type} (key : α → Int) (x a : α)
    (l : List α) : a ∈ stableInsertDesc key x l ↔ a = x ∨ a ∈ l := by
  induction l with
  | nil => simp [stableInsertDesc]
  | cons hd tl ih =>
    by_cases h : key hd ≤ key x <;> simp [stableInsertDesc, h, ih] <;> tauto

theorem mem_sortByDesc {α : Type} (key : α → Int) (a : α) (l : List α) :
    a ∈ sortByDesc key l ↔ a ∈ l := by
  induction l with
  | nil => simp [sortByDesc]
  | cons hd tl ih => simp [sortByDesc, mem_stableInsertDesc, ih]

/-! ## Roster-manager lemmas and claims C1, C2 -/

theorem apply_substitutions_no_reserve (stage_num : Nat) :
    ∀ (lost act : List String) (log : List SubEvent),
      apply_substitutions stage_num lost [] act log =
        ([], act, log ++ lost.map (fun d => ⟨stage_num, d, none⟩)) := by
  intro lost
  induction lost with
  | nil => intro act log; simp [apply_substitutions]
  | cons d rest ih =>
    intro act log
    simp [apply_substitutions, ih]

/-- Claim C1: a participant with reserve `R` and active main rider `M`,
whose reserve is still available (`reserve_riders = [R]`, i.e. no prior
substitution consumed it), ends the stage with `R` in and `M` out of the
active roster, and the substitution log receives the event
`{stage, out_rider = first lost rider, in_rider = R}`. -/
theorem C1_reserve_substitution (stage_num : Nat) (dnf : List String)
    (p : RosterParticipant) (M R : String)
    (hM : M ∈ p.active_riders) (hdnf : M ∈ dnf)
    (hres : p.reserve_riders = [R]) (hne : R ≠ M) :
    R ∈ (update_participant_roster stage_num dnf p).active_riders ∧
    M ∉ (update_participant_roster stage_num dnf p).active_riders ∧
    ∀ L0,
      (p.active_riders.filter (fun r => decide (r ∈ dnf))).head? = some L0 →
      SubEvent.mk stage_num L0 (some R) ∈
        (update_participant_roster stage_num dnf p).substitution_log := by
  have hlost : M ∈ p.active_riders.filter (fun r => decide (r ∈ dnf)) := by
    simp [List.mem_filter, hM, hdnf]
  rcases hcase : p.active_riders.filter (fun r => decide (r ∈ dnf)) with
    _ | ⟨L0, rest⟩
  · rw [hcase] at hlost; simp at hlost
  · simp only [update_participant_roster, hres, hcase, apply_substitutions,
      apply_substitutions_no_reserve]
    refine ⟨by simp, ?_, ?_⟩
    · intro hmem
      rcases List.mem_append.1 hmem with h | h
      · have h' := (List.mem_filter.1 h).2
        simp [hdnf] at h'
      · simp at h
        exact hne h.symm
    · intro L0' hL0
      simp at hL0
      subst hL0
      simp

/-- Witness for C1 at a concrete participant and stage. -/
theorem C1_reserve_substitution_witness :
    "R" ∈ (update_participant_roster 3 ["M"]
        (RosterParticipant.mk ["M", "A"] ["R"] [])).active_riders ∧
    "M" ∉ (update_participant_roster 3 ["M"]
        (RosterParticipant.mk ["M", "A"] ["R"] [])).active_riders ∧
    ∀ L0,
      ((["M", "A"] : List String).filter
        (fun r => decide (r ∈ (["M"] : List String)))).head? = some L0 →
      SubEvent.mk 3 L0 (some "R") ∈
        (update_participant_roster 3 ["M"]
          (RosterParticipant.mk ["M", "A"] ["R"] [])).substitution_log :=
  C1_reserve_substitution 3 ["M"] (RosterParticipant.mk ["M", "A"] ["R"] [])
    "M" "R" (by decide) (by decide) rfl (by decide)

/-- Number of log records of actual substitutions (`in_rider` non-null). -/
def countSubs (log : List SubEvent) : Nat :=
  (log.filter (fun e => e.in_rider.isSome)).length

theorem countSubs_append (a b : List SubEvent) :
    countSubs (a ++ b) = countSubs a + countSubs b := by
  simp [countSubs, List.filter_append]

theorem apply_substitutions_count (stage_num : Nat) :
    ∀ (lost reserve act : List String) (log : List SubEvent),
      countSubs (apply_substitutions stage_num lost reserve act log).2.2 +
          (apply_substitutions stage_num lost reserve act log).1.length =
        countSubs log + reserve.length := by
  intro lost
  induction lost with
  | nil => intro reserve act log; simp [apply_substitutions]
  | cons d rest ih =>
    intro reserve act log
    match reserve with
    | [] =>
      simp only [apply_substitutions, ih, countSubs_append]
      simp [countSubs]
    | r :: rs =>
      simp only [apply_substitutions, ih, countSubs_append]
      simp [countSubs]
      omega

theorem update_participant_roster_count (stage_num : Nat)
    (dnf : List String) (p : RosterParticipant) :
    countSubs (update_participant_roster stage_num dnf p).substitution_log +
        (update_participant_roster stage_num dnf p).reserve_riders.length =
      countSubs p.substitution_log + p.reserve_riders.length := by
  simp only [update_participant_roster]
  exact apply_substitutions_count stage_num _ _ _ _

theorem run_roster_count (p : RosterParticipant)
    (stages : List (Nat × Option (List String))) :
    countSubs (run_roster p stages).substitution_log +
        (run_roster p stages).reserve_riders.length =
      countSubs p.substitution_log + p.reserve_riders.length := by
  unfold run_roster
  refine foldl_preserve
    (fun q => countSubs q.substitution_log + q.reserve_riders.length =
      countSubs p.substitution_log + p.reserve_riders.length) _ stages p rfl ?_
  intro q s _ hq
  match s with
  | (sn, some dnf) => rw [update_participant_roster_count sn dnf q]; exact hq
  | (sn, none) => exact hq

/-- Claim C2, amended: over any whole-race stage sequence, a participant
initialized from a selection entry performs at most one substitution —
the log holds at most one record with a non-null `in_rider`.  (The log
itself may hold more records: unreplaced losses are logged with
`in_rider = None`.) -/
theorem C2_at_most_one_substitution (e : SelEntry)
    (stages : List (Nat × Option (List String))) :
    countSubs
      (run_roster (preprocess_participant e) stages).substitution_log ≤ 1 := by
  have h := run_roster_count (preprocess_participant e) stages
  have hres : (preprocess_participant e).reserve_riders.length ≤ 1 := by
    simp only [preprocess_participant]
    match e.reserve_rider with
    | some r =>
      by_cases hr : r = "" <;> simp [hr]
    | none => simp
  have hlog : countSubs (preprocess_participant e).substitution_log = 0 := by
    simp [preprocess_participant, countSubs]
  omega

/-- Counterexample to claim C2 as stated: a participant who loses rider
`"A"` at stage 1 (substituted by the reserve) and rider `"B"` at stage 2
(no reserve left) ends with a substitution log of two records, not "zero
or one" — the unreplaced loss is logged too, with `in_rider = None`. -/
theorem C2_log_two_records_counterexample :
    (run_roster (RosterParticipant.mk ["A", "B"] ["R"] [])
        [(1, some ["A"]), (2, some ["B"])]).substitution_log =
      [SubEvent.mk 1 "A" (some "R"), SubEvent.mk 2 "B" none] ∧
    (run_roster (RosterParticipant.mk ["A", "B"] ["R"] [])
        [(1, some ["A"]), (2, some ["B"])]).substitution_log.length = 2 := by
  decide

/-! ## Claims C5, C6, C8: point tables and malformed ranks -/

/-- Claim C5, amended: the stage-finish points function returns 25 for
rank 1, `21 - r` for ranks 2..20 and 0 for any other integer rank; a
missing (`None`) or non-numeric rank is not scored 0 but raises
`TypeError` from the comparison `1 <= rank` (the repository has no
digit-extraction fallback). -/
theorem C5_rank_points_amended :
    (∀ r : Int, get_stage_points_for_rank r =
       if r = 1 then 25 else if 2 ≤ r ∧ r ≤ 20 then 21 - r else 0) ∧
    (∀ s : String,
       get_stage_points_for_rank_dyn (PyRank.str s) =
         Except.error "TypeError") ∧
    get_stage_points_for_rank_dyn PyRank.null = Except.error "TypeError" := by
  refine ⟨fun r => ?_, fun s => rfl, rfl⟩
  unfold get_stage_points_for_rank
  split_ifs <;> omega

/-- Counterexample to claim C5 as stated: an unparsable rank does not
score 0 finish points — evaluating the points function on it raises. -/
theorem C5_unparsable_rank_counterexample :
    get_stage_points_for_rank_dyn (PyRank.str "abc") =
        Except.error "TypeError" ∧
      Except.error "TypeError" ≠ (Except.ok (0 : Int) : Except String Int) :=
  ⟨rfl, fun h => Except.noConfusion h⟩

/-- A stage record whose only scoring datum is a combative rider. -/
def srC6 : StageRaw :=
  { stage_date := none
  , top_20_finishers := []
  , top_gc_rider := none
  , top_points_rider := none
  , top_kom_rider := none
  , top_youth_rider := none
  , combative_rider := some "Rider X"
  , dnf_riders := [] }

/-- A processor configuration with no participants and no roster files. -/
def cfgC6 : ProcConfig :=
  { participant_selections := [], roster_files := fun _ => none }

/-- Claim C6 fails on the code: `process_stage` stores the combative
rider under the key `"combative"`, but the jersey loop looks points up
under `f"combative_jersey"` (its `"combative_rider"` special case never
fires), so `SCORING_RULES.get` yields 0 and the holder is skipped — the
combative rider receives no points at all, although the scoring table
itself says `combative_rider = 5`. -/
theorem C6_combative_rider_unscored :
    build_jersey_holders srC6 = [("combative", "Rider X")] ∧
    dictGet SCORING_RULES "combative_rider" = some 5 ∧
    calculate_rider_stage_points [] (build_jersey_holders srC6) = [] ∧
    dictGet (process_stage cfgC6 "2025-07-05" initState 4 srC6).riders_data
        "Rider X" = none := by
  decide

/-- Rows whose `rank` field is not an integer (Python: not an `int`). -/
def has_bad_rank (rows : List FinisherRowDyn) : Bool :=
  rows.any (fun row =>
    match row.rank with
    | .int _ => false
    | _ => true)

theorem add_finish_points_dyn_error :
    ∀ (rows : List FinisherRowDyn) (d : List (String × RiderBreakdown)),
      has_bad_rank rows = true →
      add_finish_points_dyn d rows = Except.error "TypeError" := by
  intro rows
  induction rows with
  | nil => intro d h; simp [has_bad_rank] at h
  | cons row rest ih =>
    intro d h
    match hr : row.rank with
    | .int n =>
      have hrest : has_bad_rank rest = true := by
        simp only [has_bad_rank, List.any_cons, hr, Bool.false_or] at h
        simpa [has_bad_rank] using h
      simp only [add_finish_points_dyn, hr, get_stage_points_for_rank_dyn]
      exact ih _ hrest
    | .str s => simp [add_finish_points_dyn, hr, get_stage_points_for_rank_dyn]
    | .null => simp [add_finish_points_dyn, hr, get_stage_points_for_rank_dyn]

/-- Claim C8, amended: a malformed (non-integer) rank field is not
coerced and does not yield 0 points — the rider point calculation
raises `TypeError` at that row (Python would abort the stage); no
best-effort digit extraction exists in the code. -/
theorem C8_malformed_rank_raises (rows : List FinisherRowDyn)
    (holders : List (String × String)) (h : has_bad_rank rows = true) :
    calculate_rider_stage_points_dyn rows holders =
      Except.error "TypeError" := by
  unfold calculate_rider_stage_points_dyn
  rw [add_finish_points_dyn_error rows [] h]
  rfl

/-- Witness for C8 at a concrete malformed row. -/
theorem C8_malformed_rank_witness :
    has_bad_rank [FinisherRowDyn.mk "Rider B" PyRank.null] = true ∧
    calculate_rider_stage_points_dyn [FinisherRowDyn.mk "Rider B" PyRank.null]
        [] = Except.error "TypeError" :=
  ⟨by decide, C8_malformed_rank_raises _ _ (by decide)⟩

/-- Counterexample to claim C8 as stated: on a row whose rank is the
string `"DNF"`, the rider point calculation raises instead of coercing
the rank and continuing. -/
theorem C8_raises_counterexample :
    calculate_rider_stage_points_dyn [FinisherRowDyn.mk "Rider A"
        (PyRank.str "DNF")] [] = Except.error "TypeError" := rfl

/-! ## Leaderboard lemmas and claims C7, C10 -/

theorem ranks_fold_get_other {β : Type} (key : β → String) (val : β → Nat) :
    ∀ (l : List β) (d₀ : List (String × Nat)) (n : String),
      (∀ b ∈ l, key b ≠ n) →
      dictGet (l.foldl (fun d b => dictSet d (key b) (val b)) d₀) n =
        dictGet d₀ n := by
  intro l
  induction l with
  | nil => intro d₀ n _; rfl
  | cons c rest ih =>
    intro d₀ n h
    simp only [List.foldl_cons]
    rw [ih _ n (fun b hb => h b (List.mem_cons_of_mem _ hb))]
    exact dictGet_set_ne d₀ (key c) n (val c) (h c (by simp))

theorem ranks_fold_get_mem {β : Type} (key : β → String) (val : β → Nat) :
    ∀ (l : List β) (d₀ : List (String × Nat)) (b : β),
      b ∈ l → (l.map key).Nodup →
      dictGet (l.foldl (fun d b => dictSet d (key b) (val b)) d₀) (key b) =
        some (val b) := by
  intro l
  induction l with
  | nil => intro d₀ b hb; simp at hb
  | cons c rest ih =>
    intro d₀ b hb hnd
    simp only [List.map_cons, List.nodup_cons] at hnd
    rcases List.mem_cons.1 hb with hb | hb
    · subst hb
      simp only [List.foldl_cons]
      rw [ranks_fold_get_other key val rest _ (key b)
        (fun b' hb' hkey => hnd.1 (hkey ▸ List.mem_map_of_mem key hb'))]
      exact dictGet_set_self d₀ (key b) (val b)
    · simp only [List.foldl_cons]
      exact ih _ b hb hnd.2

theorem old_assign_ranks_mem (pr : List (String × Nat)) :
    ∀ (i : Nat) (l : List (String × Int)) (e : OldLBEntry),
      e ∈ old_assign_ranks pr i l →
      e.rank_change = (dictGet pr e.participant_name).map
        (fun p => (p : Int) - (e.rank : Int)) := by
  intro i l
  induction l generalizing i with
  | nil => intro e he; simp [old_assign_ranks] at he
  | cons kv rest ih =>
    intro e he
    simp only [old_assign_ranks, List.mem_cons] at he
    rcases he with he | he
    · subst he
      cases h : dictGet pr kv.1 <;> simp [h] <;> push_cast <;> ring
    · exact ih (i + 1) e he

theorem assign_overall_ranks_change (pr : List (String × Nat)) :
    ∀ (i : Nat) (l : List LBEntry) (e : LBEntry),
      e ∈ assign_overall_ranks pr i l →
      e.overall_rank_change = some
        (match dictGet pr e.participant_name with
         | some p => (p : Int) - (e.overall_rank : Int)
         | none => 0) := by
  intro i l
  induction l generalizing i with
  | nil => intro e he; simp [assign_overall_ranks] at he
  | cons hd rest ih =>
    intro e he
    simp only [assign_overall_ranks, List.mem_cons] at he
    rcases he with he | he
    · subst he
      cases h : dictGet pr hd.participant_name <;> simp [h] <;> push_cast <;>
        ring
    · exact ih (i + 1) e he

theorem assign_overall_ranks_src (pr : List (String × Nat)) :
    ∀ (i : Nat) (l : List LBEntry) (e : LBEntry),
      e ∈ assign_overall_ranks pr i l →
      ∃ e₀, e₀ ∈ l ∧ e.stage_score = e₀.stage_score ∧
        e.stage_rider_contributions = e₀.stage_rider_contributions := by
  intro i l
  induction l generalizing i with
  | nil => intro e he; simp [assign_overall_ranks] at he
  | cons hd rest ih =>
    intro e he
    simp only [assign_overall_ranks, List.mem_cons] at he
    rcases he with he | he
    · exact ⟨hd, by simp, by simp [he]⟩
    · obtain ⟨e₀, h₀, h₁, h₂⟩ := ih (i + 1) e he
      exact ⟨e₀, List.mem_cons_of_mem _ h₀, h₁, h₂⟩

theorem update_rider_data_frame (stage_num : Nat) (stage_date : String)
    (rsp : List (String × RiderBreakdown)) (st : ProcState) :
    (update_rider_data stage_num stage_date rsp st).cumulative_participant_points =
        st.cumulative_participant_points ∧
      (update_rider_data stage_num stage_date rsp st).leaderboard_by_stage =
        st.leaderboard_by_stage := by
  unfold update_rider_data
  refine foldl_preserve
    (fun s => s.cumulative_participant_points = st.cumulative_participant_points ∧
      s.leaderboard_by_stage = st.leaderboard_by_stage)
    _ rsp st ⟨rfl, rfl⟩ ?_
  intro a b _ h
  exact h

theorem fill_zero_entries_frame (stage_num : Nat) (stage_date : String)
    (rsp : List (String × RiderBreakdown)) (st : ProcState) :
    (fill_zero_entries stage_num stage_date rsp st).cumulative_rider_points =
        st.cumulative_rider_points ∧
      (fill_zero_entries stage_num stage_date rsp st).cumulative_participant_points =
        st.cumulative_participant_points ∧
      (fill_zero_entries stage_num stage_date rsp st).leaderboard_by_stage =
        st.leaderboard_by_stage := by
  unfold fill_zero_entries
  refine foldl_preserve
    (fun s => s.cumulative_rider_points = st.cumulative_rider_points ∧
      s.cumulative_participant_points = st.cumulative_participant_points ∧
      s.leaderboard_by_stage = st.leaderboard_by_stage)
    _ _ st ⟨rfl, rfl, rfl⟩ ?_
  intro a b _ h
  by_cases hb : (dictGet rsp b.1).isSome <;>
    simp only [fill_zero_step, hb, if_true, if_false, Bool.false_eq_true] <;>
    exact h

/-- Claim C7, amended: in both implementations a present participant's
rank change is `previous_rank − current_rank`; for a participant absent
from the previous leaderboard, `calculate_points.py` stores `null`
(`rank_change = None`) while `calculate_points_new.py` stores the number
`0` (`overall_rank_change = 0`), not `null`. -/
theorem C7_rank_change_amended
    (previous : List OldLBEntry) (scores : List (String × Int))
    (eo : OldLBEntry) (ho : eo ∈ old_build_leaderboard previous scores)
    (p2d : List (String × String)) (st : ProcState) (k : Nat)
    (pss : List (String × PSS)) (e : LBEntry)
    (he : e ∈ dictGetD
      (update_leaderboard_after_stage p2d st k pss).leaderboard_by_stage k []) :
    ((∀ pe ∈ previous, pe.participant_name ≠ eo.participant_name) →
       eo.rank_change = none) ∧
    (∀ pe ∈ previous, pe.participant_name = eo.participant_name →
       (previous.map OldLBEntry.participant_name).Nodup →
       eo.rank_change = some ((pe.rank : Int) - (eo.rank : Int))) ∧
    ((∀ pe ∈ dictGetD st.leaderboard_by_stage (k - 1) [],
        pe.participant_name ≠ e.participant_name) →
       e.overall_rank_change = some 0) ∧
    (∀ pe ∈ dictGetD st.leaderboard_by_stage (k - 1) [],
       pe.participant_name = e.participant_name →
       ((dictGetD st.leaderboard_by_stage (k - 1) []).map
         LBEntry.participant_name).Nodup →
       e.overall_rank_change =
         some ((pe.overall_rank : Int) - (e.overall_rank : Int))) := by
  have hold := old_assign_ranks_mem _ 0 _ eo ho
  simp only [update_leaderboard_after_stage, dictGetD_set_self,
    List.mem_map] at he
  obtain ⟨e', he', hee⟩ := he
  have hchange := assign_overall_ranks_change _ 0 _ e' he'
  have hname : e.participant_name = e'.participant_name := by
    rw [← hee]
  have hrank : e.overall_rank = e'.overall_rank := by
    rw [← hee]
  have hrc : e.overall_rank_change = e'.overall_rank_change := by
    rw [← hee]
  refine ⟨?_, ?_, ?_, ?_⟩
  · intro habs
    rw [hold, ranks_fold_get_other OldLBEntry.participant_name OldLBEntry.rank
      previous [] eo.participant_name habs]
    rfl
  · intro pe hpe hpename hnd
    rw [hold, ← hpename,
      ranks_fold_get_mem OldLBEntry.participant_name OldLBEntry.rank
        previous [] pe hpe hnd]
    rfl
  · intro habs
    rw [hrc, hchange, ← hname]
    rw [ranks_fold_get_other LBEntry.participant_name LBEntry.overall_rank
      _ [] e.participant_name habs]
    rfl
  · intro pe hpe hpename hnd
    rw [hrc, hchange, ← (hpename.trans hname)]
    rw [ranks_fold_get_mem LBEntry.participant_name LBEntry.overall_rank
      _ [] pe hpe hnd]
    rw [hrank]

/-- A one-stage, one-participant configuration whose roster file for
stage 1 is present. -/
def cfgC7 : ProcConfig :=
  { participant_selections :=
      [{ name := some "P", directie := none, main_riders := some ["A"]
       , reserve_rider := none, active_riders := none }]
  , roster_files := fun _ =>
      some [{ name := some "P", directie := none, main_riders := none
            , reserve_rider := none, active_riders := some ["A"] }] }

/-- Stage 1: rider `"A"` wins, no jerseys, no DNFs. -/
def srC7 : StageRaw :=
  { stage_date := some "2025-07-05"
  , top_20_finishers := [⟨"A", 1⟩]
  , top_gc_rider := none
  , top_points_rider := none
  , top_kom_rider := none
  , top_youth_rider := none
  , combative_rider := none
  , dnf_riders := [] }

/-- Counterexample to claim C7 as stated: after the first processed
stage every participant is absent from the (nonexistent) previous
leaderboard, yet `calculate_points_new.py` records
`overall_rank_change = 0`, a number — not `null`. -/
theorem C7_null_rank_change_counterexample :
    (process_stages cfgC7 "d" [(1, srC7)]).leaderboard_by_stage =
      [(1, [{ participant_name := "P", directie_name := "Unknown"
            , overall_score := 25, overall_rank := 1
            , overall_rank_change := some 0, stage_score := 25
            , stage_rank := 1
            , stage_rider_contributions := [("A", 25)] }])] ∧
    dictGet initState.leaderboard_by_stage 0 = none ∧
    some (0 : Int) ≠ (none : Option Int) :=
  ⟨by decide, rfl, by decide⟩

/-- A processor state with one cumulative participant and no previous
leaderboard, used to exercise the new rank-change path. -/
def stC7 : ProcState :=
  { initState with cumulative_participant_points := [("P", 7)] }

/-- Witness for C7 at concrete leaderboards: the legacy path gives
`none` for an absent participant and `3 − 2` for one previously ranked
3rd and now 2nd; the new path gives `0` for an absent participant. -/
theorem C7_rank_change_witness :
    OldLBEntry.rank_change
        { participant_name := "P", total_score := 9, rank := 1
        , rank_change := none } = none ∧
    OldLBEntry.rank_change
        { participant_name := "Q", total_score := 4, rank := 2
        , rank_change := some 1 } = some ((3 : Int) - (2 : Int)) ∧
    LBEntry.overall_rank_change
        { participant_name := "P", directie_name := "Unknown"
        , overall_score := 7, overall_rank := 1
        , overall_rank_change := some 0, stage_score := 0, stage_rank := 1
        , stage_rider_contributions := [] } = some 0 := by
  refine ⟨?_, ?_, ?_⟩
  · exact (C7_rank_change_amended
      [{ participant_name := "Q", total_score := 3, rank := 3
       , rank_change := none }] [("P", 9), ("Q", 4)]
      { participant_name := "P", total_score := 9, rank := 1
      , rank_change := none } (by decide) [] stC7 1 []
      { participant_name := "P", directie_name := "Unknown"
      , overall_score := 7, overall_rank := 1, overall_rank_change := some 0
      , stage_score := 0, stage_rank := 1, stage_rider_contributions := [] }
      (by decide)).1 (by decide)
  · exact (C7_rank_change_amended
      [{ participant_name := "Q", total_score := 3, rank := 3
       , rank_change := none }] [("P", 9), ("Q", 4)]
      { participant_name := "Q", total_score := 4, rank := 2
      , rank_change := some 1 } (by decide) [] stC7 1 []
      { participant_name := "P", directie_name := "Unknown"
      , overall_score := 7, overall_rank := 1, overall_rank_change := some 0
      , stage_score := 0, stage_rank := 1, stage_rider_contributions := [] }
      (by decide)).2.1
      { participant_name := "Q", total_score := 3, rank := 3
      , rank_change := none } (by decide) rfl (by decide)
  · exact (C7_rank_change_amended
      [{ participant_name := "Q", total_score := 3, rank := 3
       , rank_change := none }] [("P", 9), ("Q", 4)]
      { participant_name := "P", total_score := 9, rank := 1
      , rank_change := none } (by decide) [] stC7 1 []
      { participant_name := "P", directie_name := "Unknown"
      , overall_score := 7, overall_rank := 1, overall_rank_change := some 0
      , stage_score := 0, stage_rank := 1, stage_rider_contributions := [] }
      (by decide)).2.2.1 (by decide)

theorem compute_participant_scores_empty (p2d : List (String × String))
    (k : Nat) (roster : List SelEntry) (st : ProcState)
    (h : ∀ en ∈ roster, en.active_riders = none) :
    (∀ n v, dictGet (compute_participant_scores p2d k roster st).1 n = some v →
       v.stage_score = 0 ∧ v.rider_contributions = []) ∧
    (∀ m, dictGetD (compute_participant_scores p2d k roster st).2 m 0 =
       dictGetD st.cumulative_participant_points m 0) := by
  unfold compute_participant_scores
  refine foldl_preserve
    (fun acc : List (String × PSS) × List (String × Int) =>
      (∀ (n : String) (v : PSS), dictGet acc.1 n = some v →
        v.stage_score = 0 ∧ v.rider_contributions = []) ∧
      (∀ m : String, dictGetD acc.2 m 0 =
        dictGetD st.cumulative_participant_points m 0))
    _ roster _ ⟨fun n v hv => by simp [dictGet] at hv, fun m => rfl⟩ ?_
  intro acc en hen hP
  cases hn : en.name with
  | none => exact hP
  | some pname =>
    by_cases hp : pname = ""
    · simp only [hn, hp, if_pos rfl]
      exact hP
    · simp only [hn, if_neg hp, h en hen, Option.getD_none, List.foldl_nil]
      constructor
      · intro n v hv
        by_cases hnp : n = pname
        · subst hnp
          rw [dictGet_set_self] at hv
          cases hv
          exact ⟨rfl, rfl⟩
        · rw [dictGet_set_ne _ pname n _ (fun hh => hnp hh.symm)] at hv
          exact hP.1 n v hv
      · intro m
        by_cases hmp : m = pname
        · subst hmp
          rw [dictGetD_set_self]
          rw [add_zero]
          exact hP.2 m
        · unfold dictGetD
          rw [dictGet_set_ne _ pname m _ (fun hh => hmp hh.symm)]
          exact hP.2 m

theorem update_leaderboard_zero_scores (p2d : List (String × String))
    (st : ProcState) (k : Nat) (pss : List (String × PSS))
    (h : ∀ n v, dictGet pss n = some v →
      v.stage_score = 0 ∧ v.rider_contributions = []) :
    ∀ e ∈ dictGetD
      (update_leaderboard_after_stage p2d st k pss).leaderboard_by_stage k [],
      e.stage_score = 0 ∧ e.stage_rider_contributions = [] := by
  intro e he
  simp only [update_leaderboard_after_stage, dictGetD_set_self,
    List.mem_map] at he
  obtain ⟨e', he', hee⟩ := he
  have hs : e.stage_score = e'.stage_score := by rw [← hee]
  have hc : e.stage_rider_contributions = e'.stage_rider_contributions := by
    rw [← hee]
  obtain ⟨e₀, h₀, hs₀, hc₀⟩ := assign_overall_ranks_src _ 0 _ e' he'
  rw [mem_sortByDesc] at h₀
  simp only [List.mem_map] at h₀
  obtain ⟨kv, _, hkv⟩ := h₀
  have hs₁ : e₀.stage_score =
      match dictGet pss kv.1 with
      | some s => s.stage_score
      | none => 0 := by rw [← hkv]
  have hc₁ : e₀.stage_rider_contributions =
      match dictGet pss kv.1 with
      | some s => s.rider_contributions
      | none => [] := by rw [← hkv]
  constructor
  · rw [hs, hs₀, hs₁]
    cases hg : dictGet pss kv.1 with
    | none => rfl
    | some s => exact (h kv.1 s hg).1
  · rw [hc, hc₀, hc₁]
    cases hg : dictGet pss kv.1 with
    | none => rfl
    | some s => exact (h kv.1 s hg).2

/-- Claim C10: when the per-stage roster file is absent, `process_stage`
falls back to the initial selections, whose riders sit under
`main_riders`; reading `active_riders` there yields the empty list, so
every participant scores 0 for the stage (cumulative score values
unchanged) with empty rider contributions. -/
theorem C10_missing_roster_fallback (cfg : ProcConfig) (now : String)
    (st : ProcState) (k : Nat) (sr : StageRaw)
    (hfile : cfg.roster_files k = none)
    (hsel : ∀ en ∈ cfg.participant_selections, en.active_riders = none) :
    (∀ n,
      dictGetD (process_stage cfg now st k sr).cumulative_participant_points
          n 0 =
        dictGetD st.cumulative_participant_points n 0) ∧
    ∀ e ∈ dictGetD (process_stage cfg now st k sr).leaderboard_by_stage k [],
      e.stage_score = 0 ∧ e.stage_rider_contributions = [] := by
  have hcum2 : ∀ sd rsp,
      (fill_zero_entries k sd rsp
        (update_rider_data k sd rsp st)).cumulative_participant_points =
        st.cumulative_participant_points := by
    intro sd rsp
    rw [(fill_zero_entries_frame k sd rsp _).2.1,
      (update_rider_data_frame k sd rsp st).1]
  simp only [process_stage, hfile, Option.getD_none]
  constructor
  · intro n
    have h := (compute_participant_scores_empty
      (participant_to_directie cfg.participant_selections) k
      cfg.participant_selections
      (fill_zero_entries k (sr.stage_date.getD now) (stage_rsp sr)
        (update_rider_data k (sr.stage_date.getD now) (stage_rsp sr) st))
      hsel).2 n
    rw [hcum2] at h
    exact h
  · exact update_leaderboard_zero_scores _ _ k _
      (compute_participant_scores_empty _ k cfg.participant_selections _
        hsel).1

/-- A configuration with one participant (riders under `main_riders`)
and no roster files at all. -/
def cfgC10 : ProcConfig :=
  { participant_selections :=
      [{ name := some "P", directie := none, main_riders := some ["A"]
       , reserve_rider := none, active_riders := none }]
  , roster_files := fun _ => none }

/-- Stage 1 input for the C10 witness: rider `"A"` wins. -/
def srC10 : StageRaw :=
  { stage_date := some "2025-07-06"
  , top_20_finishers := [⟨"A", 1⟩]
  , top_gc_rider := none
  , top_points_rider := none
  , top_kom_rider := none
  , top_youth_rider := none
  , combative_rider := none
  , dnf_riders := [] }

/-- Witness for C10: with the roster file absent, participant `"P"`
(whose rider `"A"` won the stage) still scores 0, with empty
contributions. -/
theorem C10_missing_roster_fallback_witness :
    dictGetD (process_stage cfgC10 "d" initState 1
        srC10).cumulative_participant_points "P" 0 =
      dictGetD initState.cumulative_participant_points "P" 0 ∧
    LBEntry.stage_score
        { participant_name := "P", directie_name := "Unknown"
        , overall_score := 0, overall_rank := 1
        , overall_rank_change := some 0, stage_score := 0, stage_rank := 1
        , stage_rider_contributions := [] } = 0 ∧
    LBEntry.stage_rider_contributions
        { participant_name := "P", directie_name := "Unknown"
        , overall_score := 0, overall_rank := 1
        , overall_rank_change := some 0, stage_score := 0, stage_rank := 1
        , stage_rider_contributions := [] } = [] := by
  refine ⟨(C10_missing_roster_fallback cfgC10 "d" initState 1 srC10 rfl
    (by decide)).1 "P", ?_⟩
  have h := (C10_missing_roster_fallback cfgC10 "d" initState 1 srC10 rfl
    (by decide)).2
      { participant_name := "P", directie_name := "Unknown"
      , overall_score := 0, overall_rank := 1
      , overall_rank_change := some 0, stage_score := 0, stage_rank := 1
      , stage_rider_contributions := [] } (by decide)
  exact h

/-! ## Claim C9: the pipeline is a pure function of the stage inputs -/

/-- Erase the `date` field of a history entry (the only place where the
wall-clock fallback `datetime.now()` can leak into the state). -/
def eraseEntryDate (e : RiderStageEntry) : RiderStageEntry :=
  { e with date := "" }

/-- Erase all dates of one rider record. -/
def eraseInfoDates (info : RiderInfo) : RiderInfo :=
  { info with stages := mapVals eraseEntryDate info.stages }

/-- Erase all dates of a processor state.  All other components —
cumulative rider points, cumulative participant scores, leaderboards —
are kept verbatim. -/
def eraseDates (st : ProcState) : ProcState :=
  { st with riders_data := mapVals eraseInfoDates st.riders_data }

theorem mapVals_getD {κ α β : Type} [DecidableEq κ] (f : α → β)
    (d : List (κ × α)) (k : κ) (v₀ : α) :
    dictGetD (mapVals f d) k (f v₀) = f (dictGetD d k v₀) := by
  unfold dictGetD
  rw [dictGet_mapVals]
  cases dictGet d k <;> rfl

theorem isSome_mapVals {κ α β : Type} [DecidableEq κ] (f : α → β)
    (d : List (κ × α)) (k : κ) :
    (dictGet (mapVals f d) k).isSome = (dictGet d k).isSome := by
  rw [dictGet_mapVals]
  cases dictGet d k <;> rfl

theorem eraseDates_of_components (st₁ st₂ : ProcState)
    (h1 : mapVals eraseInfoDates st₁.riders_data =
      mapVals eraseInfoDates st₂.riders_data)
    (h2 : st₁.cumulative_rider_points = st₂.cumulative_rider_points)
    (h3 : st₁.cumulative_participant_points =
      st₂.cumulative_participant_points)
    (h4 : st₁.leaderboard_by_stage = st₂.leaderboard_by_stage) :
    eraseDates st₁ = eraseDates st₂ := by
  unfold eraseDates
  rw [h1, h2, h3, h4]

theorem eraseInfoDates_build (c : Int) (S : List (Nat × RiderStageEntry))
    (k : Nat) (e : RiderStageEntry) :
    eraseInfoDates ⟨c, dictSet S k e⟩ =
      ⟨c, dictSet (mapVals eraseEntryDate S) k (eraseEntryDate e)⟩ := by
  unfold eraseInfoDates
  simp [mapVals_dictSet]

theorem stages_getD_mapVals (d : List (String × RiderInfo)) (k : String) :
    (dictGetD (mapVals eraseInfoDates d) k ⟨0, []⟩).stages =
      mapVals eraseEntryDate (dictGetD d k ⟨0, []⟩).stages := by
  rw [show (⟨0, []⟩ : RiderInfo) = eraseInfoDates ⟨0, []⟩ from rfl,
    mapVals_getD]
  rfl

theorem update_rider_step_erase (k : Nat) (d : String) (st : ProcState)
    (kv : String × RiderBreakdown) :
    eraseDates (update_rider_step k d st kv) =
      update_rider_step k "" (eraseDates st) kv := by
  have hz : eraseInfoDates ⟨0, []⟩ = (⟨0, []⟩ : RiderInfo) := rfl
  unfold update_rider_step eraseDates
  by_cases hs : (dictGet st.riders_data kv.1).isSome
  · simp only [isSome_mapVals, hs, if_true]
    congr 1
    rw [mapVals_dictSet]
    congr 1
    rw [eraseInfoDates_build, stages_getD_mapVals]
    rfl
  · simp only [isSome_mapVals, hs, if_false, Bool.false_eq_true,
      dictGetD_set_self]
    congr 1
    rw [mapVals_dictSet, mapVals_dictSet, hz]
    rfl

theorem total_getD_mapVals (d : List (String × RiderInfo)) (k : String) :
    (dictGetD (mapVals eraseInfoDates d) k ⟨0, []⟩).total_points =
      (dictGetD d k ⟨0, []⟩).total_points := by
  rw [show (⟨0, []⟩ : RiderInfo) = eraseInfoDates ⟨0, []⟩ from rfl,
    mapVals_getD]
  rfl

theorem fill_zero_step_erase (k : Nat) (d : String)
    (rsp : List (String × RiderBreakdown)) (st : ProcState)
    (kv : String × Int) :
    eraseDates (fill_zero_step k d rsp st kv) =
      fill_zero_step k "" rsp (eraseDates st) kv := by
  have hz : eraseInfoDates ⟨0, []⟩ = (⟨0, []⟩ : RiderInfo) := rfl
  unfold fill_zero_step
  by_cases hb : (dictGet rsp kv.1).isSome
  · simp only [hb, if_true]
  · simp only [hb, if_false, Bool.false_eq_true]
    unfold eraseDates
    by_cases hs : (dictGet st.riders_data kv.1).isSome
    · simp only [isSome_mapVals, hs, if_true]
      congr 1
      rw [mapVals_dictSet]
      congr 1
      rw [eraseInfoDates_build]
      congr 1
      · exact (total_getD_mapVals st.riders_data kv.1).symm
      · rw [stages_getD_mapVals]
        rfl
    · simp only [isSome_mapVals, hs, if_false, Bool.false_eq_true,
        dictGetD_set_self]
      congr 1
      rw [mapVals_dictSet, mapVals_dictSet, hz]
      rfl

theorem update_rider_data_erase (k : Nat) (d : String)
    (rsp : List (String × RiderBreakdown)) :
    ∀ st : ProcState,
      eraseDates (update_rider_data k d rsp st) =
        update_rider_data k "" rsp (eraseDates st) := by
  induction rsp with
  | nil => intro st; rfl
  | cons kv rest ih =>
    intro st
    unfold update_rider_data at ih ⊢
    simp only [List.foldl_cons]
    rw [ih, update_rider_step_erase]

theorem fill_fold_erase (k : Nat) (d : String)
    (rsp : List (String × RiderBreakdown)) :
    ∀ (L : List (String × Int)) (st : ProcState),
      eraseDates (L.foldl (fill_zero_step k d rsp) st) =
        L.foldl (fill_zero_step k "" rsp) (eraseDates st) := by
  intro L
  induction L with
  | nil => intro st; rfl
  | cons kv rest ih =>
    intro st
    simp only [List.foldl_cons]
    rw [ih, fill_zero_step_erase]

theorem fill_zero_entries_erase (k : Nat) (d : String)
    (rsp : List (String × RiderBreakdown)) (st : ProcState) :
    eraseDates (fill_zero_entries k d rsp st) =
      fill_zero_entries k "" rsp (eraseDates st) := by
  unfold fill_zero_entries
  exact fill_fold_erase k d rsp st.cumulative_rider_points st

theorem rider_stage_total_in_erase (st : ProcState) (k : Nat) (r : String) :
    rider_stage_total_in (eraseDates st) k r = rider_stage_total_in st k r := by
  unfold rider_stage_total_in
  rw [show dictGet (eraseDates st).riders_data r =
      (dictGet st.riders_data r).map eraseInfoDates from
    dictGet_mapVals eraseInfoDates st.riders_data r]
  cases dictGet st.riders_data r with
  | none => rfl
  | some info =>
    simp only [Option.map_some']
    rw [show dictGet (eraseInfoDates info).stages k =
        (dictGet info.stages k).map eraseEntryDate from
      dictGet_mapVals eraseEntryDate info.stages k]
    cases dictGet info.stages k <;> rfl

theorem foldl_fun_congr {α β : Type} (f g : α → β → α)
    (h : ∀ a b, f a b = g a b) :
    ∀ (l : List β) (a : α), l.foldl f a = l.foldl g a := by
  intro l
  induction l with
  | nil => intro a; rfl
  | cons b rest ih =>
    intro a
    simp only [List.foldl_cons]
    rw [h a b]
    exact ih _

theorem compute_participant_scores_erase (p2d : List (String × String))
    (k : Nat) (roster : List SelEntry) (st : ProcState) :
    compute_participant_scores p2d k roster (eraseDates st) =
      compute_participant_scores p2d k roster st := by
  unfold compute_participant_scores
  exact foldl_fun_congr _ _
    (fun acc en => by simp only [rider_stage_total_in_erase]) roster _

theorem update_leaderboard_erase (p2d : List (String × String))
    (st : ProcState) (k : Nat) (pss : List (String × PSS)) :
    eraseDates (update_leaderboard_after_stage p2d st k pss) =
      update_leaderboard_after_stage p2d (eraseDates st) k pss := rfl

theorem eraseDates_setPart (st₁ st₂ : ProcState)
    (p₁ p₂ : List (String × Int)) (h : eraseDates st₁ = eraseDates st₂)
    (hp : p₁ = p₂) :
    eraseDates { st₁ with cumulative_participant_points := p₁ } =
      eraseDates { st₂ with cumulative_participant_points := p₂ } := by
  apply eraseDates_of_components
  · have hc := congrArg ProcState.riders_data h
    exact hc
  · have hc := congrArg ProcState.cumulative_rider_points h
    exact hc
  · exact hp
  · have hc := congrArg ProcState.leaderboard_by_stage h
    exact hc

theorem process_stage_erase (cfg : ProcConfig) (k : Nat) (sr : StageRaw)
    (now₁ now₂ : String) (st₁ st₂ : ProcState)
    (h : eraseDates st₁ = eraseDates st₂) :
    eraseDates (process_stage cfg now₁ st₁ k sr) =
      eraseDates (process_stage cfg now₂ st₂ k sr) := by
  unfold process_stage
  have hst2 : eraseDates (fill_zero_entries k (sr.stage_date.getD now₁)
        (stage_rsp sr)
        (update_rider_data k (sr.stage_date.getD now₁) (stage_rsp sr) st₁)) =
      eraseDates (fill_zero_entries k (sr.stage_date.getD now₂) (stage_rsp sr)
        (update_rider_data k (sr.stage_date.getD now₂) (stage_rsp sr) st₂)) := by
    rw [fill_zero_entries_erase, fill_zero_entries_erase,
      update_rider_data_erase, update_rider_data_erase, h]
  have hsc : compute_participant_scores
        (participant_to_directie cfg.participant_selections) k
        ((cfg.roster_files k).getD cfg.participant_selections)
        (fill_zero_entries k (sr.stage_date.getD now₁) (stage_rsp sr)
          (update_rider_data k (sr.stage_date.getD now₁) (stage_rsp sr) st₁)) =
      compute_participant_scores
        (participant_to_directie cfg.participant_selections) k
        ((cfg.roster_files k).getD cfg.participant_selections)
        (fill_zero_entries k (sr.stage_date.getD now₂) (stage_rsp sr)
          (update_rider_data k (sr.stage_date.getD now₂) (stage_rsp sr) st₂)) := by
    rw [← compute_participant_scores_erase _ _ _
        (fill_zero_entries k (sr.stage_date.getD now₁) (stage_rsp sr)
          (update_rider_data k (sr.stage_date.getD now₁) (stage_rsp sr) st₁)),
      ← compute_participant_scores_erase _ _ _
        (fill_zero_entries k (sr.stage_date.getD now₂) (stage_rsp sr)
          (update_rider_data k (sr.stage_date.getD now₂) (stage_rsp sr) st₂)),
      hst2]
  rw [update_leaderboard_erase, update_leaderboard_erase, hsc]
  rw [eraseDates_setPart _ _ _ _ hst2 rfl]

/-- Claim C9: the processor outputs are a deterministic pure function of
the ordered stage inputs.  Replaying the same stage sequence from the
empty state — even with a different wall clock `now` (the
`datetime.now()` date fallback, the only environment input) — yields
identical cumulative rider totals, identical cumulative participant
scores, identical leaderboards, and identical states up to the per-entry
`date` metadata field. -/
theorem C9_replay_deterministic (cfg : ProcConfig) (now₁ now₂ : String)
    (stages : List (Nat × StageRaw)) :
    (process_stages cfg now₁ stages).cumulative_rider_points =
        (process_stages cfg now₂ stages).cumulative_rider_points ∧
      (process_stages cfg now₁ stages).cumulative_participant_points =
        (process_stages cfg now₂ stages).cumulative_participant_points ∧
      (process_stages cfg now₁ stages).leaderboard_by_stage =
        (process_stages cfg now₂ stages).leaderboard_by_stage ∧
      eraseDates (process_stages cfg now₁ stages) =
        eraseDates (process_stages cfg now₂ stages) := by
  have main : ∀ (l : List (Nat × StageRaw)) (st₁ st₂ : ProcState),
      eraseDates st₁ = eraseDates st₂ →
      eraseDates (l.foldl (fun st s => process_stage cfg now₁ st s.1 s.2) st₁) =
        eraseDates
          (l.foldl (fun st s => process_stage cfg now₂ st s.1 s.2) st₂) := by
    intro l
    induction l with
    | nil => intro st₁ st₂ h; exact h
    | cons s rest ih =>
      intro st₁ st₂ h
      simp only [List.foldl_cons]
      exact ih _ _ (process_stage_erase cfg s.1 s.2 now₁ now₂ st₁ st₂ h)
  have h := main stages initState initState rfl
  refine ⟨?_, ?_, ?_, h⟩
  · have hc := congrArg ProcState.cumulative_rider_points h
    exact hc
  · have hc := congrArg ProcState.cumulative_participant_points h
    exact hc
  · have hc := congrArg ProcState.leaderboard_by_stage h
    exact hc

/-! ## Claims C3, C4: cumulative totals and dense history

The master invariant `StInv` ties, for every rider, the `riders_data`
record to the cumulative map after any prefix of processed stages. -/

/-- What `process_stage` records for rider `r` at one stage: the rider's
breakdown when they scored, the zero entry otherwise. -/
def EntryMatches (r : String) (sr : StageRaw) (e : RiderStageEntry) : Prop :=
  match dictGet (stage_rsp sr) r with
  | some b =>
    e.stage_finish_points = b.stage_finish_points ∧
      e.jersey_points = b.jersey_points ∧ e.stage_total = b.stage_total
  | none =>
    e.stage_finish_points = 0 ∧ e.jersey_points = [] ∧ e.stage_total = 0

/-- Each history entry's cumulative total is the previous entry's plus
its own stage total. -/
def cumChain (l : List (Nat × RiderStageEntry)) : Prop :=
  List.Chain'
    (fun a b =>
      b.2.cumulative_total = a.2.cumulative_total + b.2.stage_total) l

/-- The per-rider invariant after the listed stages were processed (in
that order). -/
def RiderInv (processed : List (Nat × StageRaw)) (st : ProcState)
    (r : String) : Prop :=
  match dictGet st.riders_data r, dictGet st.cumulative_rider_points r with
  | some info, some c =>
    info.total_points = c ∧
      info.stages.map Prod.fst <:+ processed.map Prod.fst ∧
      info.stages ≠ [] ∧
      (∃ last, info.stages.getLast? = some last ∧
        last.2.cumulative_total = c) ∧
      cumChain info.stages ∧
      (∀ h, info.stages.head? = some h →
        h.2.cumulative_total = h.2.stage_total) ∧
      (∀ kv ∈ info.stages, 0 ≤ kv.2.stage_total) ∧
      (∀ k sr, (k, sr) ∈ processed → ∀ e, dictGet info.stages k = some e →
        EntryMatches r sr e)
  | none, none => True
  | _, _ => False

/-- The whole-state invariant. -/
def StInv (processed : List (Nat × StageRaw)) (st : ProcState) : Prop :=
  (dictKeys st.riders_data).Nodup ∧
    (dictKeys st.cumulative_rider_points).Nodup ∧
    ∀ r, RiderInv processed st r

theorem get_stage_points_for_rank_nonneg (r : Int) :
    0 ≤ get_stage_points_for_rank r := by
  unfold get_stage_points_for_rank
  split_ifs <;> omega

theorem mem_dictSet {κ α : Type} [DecidableEq κ] (k : κ) (v : α) :
    ∀ (d : List (κ × α)) (kv : κ × α),
      kv ∈ dictSet d k v → kv ∈ d ∨ kv = (k, v) := by
  intro d
  induction d with
  | nil =>
    intro kv h
    simp [dictSet] at h
    simp [h]
  | cons hd tl ih =>
    intro kv h
    obtain ⟨k', v'⟩ := hd
    by_cases hk : k' = k
    · subst hk
      simp [dictSet] at h
      rcases h with h | h
      · exact Or.inr (by simp [h])
      · exact Or.inl (List.mem_cons_of_mem _ h)
    · simp only [dictSet, if_neg hk, List.mem_cons] at h
      rcases h with h | h
      · exact Or.inl (by simp [h])
      · rcases ih kv h with h' | h'
        · exact Or.inl (List.mem_cons_of_mem _ h')
        · exact Or.inr h'

theorem add_finish_points_nonneg (rows : List FinisherRow)
    (d : List (String × RiderBreakdown))
    (hd : ∀ kv ∈ d, 0 ≤ kv.2.stage_total) :
    ∀ kv ∈ add_finish_points d rows, 0 ≤ kv.2.stage_total := by
  unfold add_finish_points
  refine foldl_preserve (fun d => ∀ kv ∈ d, 0 ≤ kv.2.stage_total)
    _ rows d hd ?_
  intro a row _ ha kv hkv
  rcases mem_dictSet _ _ _ _ hkv with h | h
  · exact ha kv h
  · rw [h]
    exact get_stage_points_for_rank_nonneg _

theorem add_jersey_points_nonneg (jersey_holders : List (String × String))
    (d : List (String × RiderBreakdown))
    (hd : ∀ kv ∈ d, 0 ≤ kv.2.stage_total) :
    ∀ kv ∈ add_jersey_points d jersey_holders, 0 ≤ kv.2.stage_total := by
  unfold add_jersey_points
  refine foldl_preserve (fun d => ∀ kv ∈ d, 0 ≤ kv.2.stage_total)
    _ jersey_holders d hd ?_
  intro a jh _ ha kv hkv
  by_cases hg : 0 < dictGetD SCORING_RULES
      (if jh.1 = "combative_rider" then jh.1 else jh.1 ++ "_jersey") 0 ∧
      jh.2 ≠ "" ∧ jh.2 ≠ "N/A"
  · simp only [if_pos hg] at hkv
    rcases mem_dictSet _ _ _ _ hkv with h | h
    · exact ha kv h
    · rw [h]
      have hcur : 0 ≤ (dictGetD a jh.2 RiderBreakdown.zero).stage_total := by
        unfold dictGetD
        cases hget : dictGet a jh.2 with
        | none => simp [RiderBreakdown.zero]
        | some v => simpa using ha (jh.2, v) (dictGet_mem hget)
      have hpts := hg.1
      simp only []
      omega
  · simp only [if_neg hg] at hkv
    exact ha kv hkv

theorem stage_rsp_nonneg (sr : StageRaw) :
    ∀ kv ∈ stage_rsp sr, 0 ≤ kv.2.stage_total := by
  unfold stage_rsp calculate_rider_stage_points
  exact add_jersey_points_nonneg _ _
    (add_finish_points_nonneg _ [] (by simp))

theorem update_rider_step_ne (k : Nat) (date : String) (st : ProcState)
    (kv : String × RiderBreakdown) (r : String) (hne : kv.1 ≠ r) :
    dictGet (update_rider_step k date st kv).riders_data r =
        dictGet st.riders_data r ∧
      dictGet (update_rider_step k date st kv).cumulative_rider_points r =
        dictGet st.cumulative_rider_points r := by
  unfold update_rider_step
  constructor
  · show dictGet (dictSet _ kv.1 _) r = _
    rw [dictGet_set_ne _ kv.1 r _ hne]
    by_cases hs : (dictGet st.riders_data kv.1).isSome
    · rw [if_pos hs]
    · rw [if_neg hs, dictGet_set_ne _ kv.1 r _ hne]
  · show dictGet (dictSet st.cumulative_rider_points kv.1 _) r = _
    rw [dictGet_set_ne _ kv.1 r _ hne]

theorem update_rider_step_self (k : Nat) (date : String) (st : ProcState)
    (kv : String × RiderBreakdown) :
    dictGet (update_rider_step k date st kv).riders_data kv.1 =
        some ⟨dictGetD st.cumulative_rider_points kv.1 0 + kv.2.stage_total,
          dictSet (dictGetD st.riders_data kv.1 ⟨0, []⟩).stages k
            ⟨date, kv.2.stage_finish_points, kv.2.jersey_points,
             kv.2.stage_total,
             dictGetD st.cumulative_rider_points kv.1 0 + kv.2.stage_total⟩⟩ ∧
      dictGet (update_rider_step k date st kv).cumulative_rider_points kv.1 =
        some (dictGetD st.cumulative_rider_points kv.1 0 +
          kv.2.stage_total) := by
  unfold update_rider_step
  constructor
  · show dictGet (dictSet _ kv.1 _) kv.1 = _
    rw [dictGet_set_self]
    by_cases hs : (dictGet st.riders_data kv.1).isSome
    · rw [if_pos hs]
    · rw [if_neg hs, dictGetD_set_self]
      have hnone : dictGet st.riders_data kv.1 = none := by
        cases hg : dictGet st.riders_data kv.1
        · rfl
        · rw [hg] at hs; simp at hs
      rw [show dictGetD st.riders_data kv.1 (⟨0, []⟩ : RiderInfo) = ⟨0, []⟩
        from by unfold dictGetD; rw [hnone]; rfl]
  · show dictGet (dictSet st.cumulative_rider_points kv.1 _) kv.1 = _
    rw [dictGet_set_self]

theorem update_rider_data_get_none (k : Nat) (date : String) :
    ∀ (rsp : List (String × RiderBreakdown)) (st : ProcState) (r : String),
      dictGet rsp r = none →
      dictGet (update_rider_data k date rsp st).riders_data r =
          dictGet st.riders_data r ∧
        dictGet (update_rider_data k date rsp st).cumulative_rider_points r =
          dictGet st.cumulative_rider_points r := by
  intro rsp
  induction rsp with
  | nil => intro st r _; exact ⟨rfl, rfl⟩
  | cons kv rest ih =>
    intro st r hr
    have hne : kv.1 ≠ r := by
      intro hh
      simp [dictGet, hh] at hr
    have hrest : dictGet rest r = none := by
      simpa [dictGet, hne] using hr
    have hstep := update_rider_step_ne k date st kv r hne
    have := ih (update_rider_step k date st kv) r hrest
    unfold update_rider_data at this ⊢
    simp only [List.foldl_cons]
    rw [this.1, this.2, hstep.1, hstep.2]
    exact ⟨rfl, rfl⟩

theorem update_rider_data_get_some (k : Nat) (date : String) :
    ∀ (rsp : List (String × RiderBreakdown)) (st : ProcState) (r : String)
      (b : RiderBreakdown), (dictKeys rsp).Nodup → dictGet rsp r = some b →
      dictGet (update_rider_data k date rsp st).riders_data r =
          some ⟨dictGetD st.cumulative_rider_points r 0 + b.stage_total,
            dictSet (dictGetD st.riders_data r ⟨0, []⟩).stages k
              ⟨date, b.stage_finish_points, b.jersey_points, b.stage_total,
               dictGetD st.cumulative_rider_points r 0 + b.stage_total⟩⟩ ∧
        dictGet (update_rider_data k date rsp st).cumulative_rider_points r =
          some (dictGetD st.cumulative_rider_points r 0 + b.stage_total) := by
  intro rsp
  induction rsp with
  | nil => intro st r b _ hr; simp [dictGet] at hr
  | cons kv rest ih =>
    intro st r b hnd hr
    simp only [dictKeys, List.map_cons, List.nodup_cons] at hnd
    by_cases hkr : kv.1 = r
    · have hb : b = kv.2 := by
        simp [dictGet, hkr] at hr
        rw [hr]
      subst hb
      subst hkr
      have hrest : dictGet rest kv.1 = none := by
        rw [dictGet_eq_none_iff]
        exact hnd.1
      have hstep := update_rider_step_self k date st kv
      have hnone := update_rider_data_get_none k date rest
        (update_rider_step k date st kv) kv.1 hrest
      unfold update_rider_data at hnone ⊢
      simp only [List.foldl_cons]
      rw [hnone.1, hnone.2, hstep.1, hstep.2]
      exact ⟨rfl, rfl⟩
    · have hrest : dictGet rest r = some b := by
        simpa [dictGet, hkr] using hr
      have hstep := update_rider_step_ne k date st kv r
        (fun hh => hkr hh)
      have hih := ih (update_rider_step k date st kv) r b hnd.2 hrest
      unfold update_rider_data at hih ⊢
      simp only [List.foldl_cons]
      rw [hih.1, hih.2]
      unfold dictGetD
      rw [hstep.1, hstep.2]
      exact ⟨rfl, rfl⟩

theorem update_rider_data_keys_nodup (k : Nat) (date : String)
    (rsp : List (String × RiderBreakdown)) (st : ProcState)
    (h1 : (dictKeys st.riders_data).Nodup)
    (h2 : (dictKeys st.cumulative_rider_points).Nodup) :
    (dictKeys (update_rider_data k date rsp st).riders_data).Nodup ∧
      (dictKeys
        (update_rider_data k date rsp st).cumulative_rider_points).Nodup := by
  unfold update_rider_data
  refine foldl_preserve
    (fun s => (dictKeys s.riders_data).Nodup ∧
      (dictKeys s.cumulative_rider_points).Nodup)
    _ rsp st ⟨h1, h2⟩ ?_
  intro a kv _ ha
  unfold update_rider_step
  constructor
  · show (dictKeys (dictSet _ kv.1 _)).Nodup
    apply dictKeys_set_nodup
    by_cases hs : (dictGet a.riders_data kv.1).isSome
    · rw [if_pos hs]; exact ha.1
    · rw [if_neg hs]; exact dictKeys_set_nodup _ _ _ ha.1
  · exact dictKeys_set_nodup _ _ _ ha.2

theorem fill_zero_step_cum (k : Nat) (date : String)
    (rsp : List (String × RiderBreakdown)) (st : ProcState)
    (kv : String × Int) :
    (fill_zero_step k date rsp st kv).cumulative_rider_points =
      st.cumulative_rider_points := by
  unfold fill_zero_step
  by_cases hb : (dictGet rsp kv.1).isSome
  · rw [if_pos hb]
  · rw [if_neg hb]

theorem fill_zero_step_ne (k : Nat) (date : String)
    (rsp : List (String × RiderBreakdown)) (st : ProcState)
    (kv : String × Int) (r : String) (hne : kv.1 ≠ r) :
    dictGet (fill_zero_step k date rsp st kv).riders_data r =
      dictGet st.riders_data r := by
  unfold fill_zero_step
  by_cases hb : (dictGet rsp kv.1).isSome
  · rw [if_pos hb]
  · rw [if_neg hb]
    show dictGet (dictSet _ kv.1 _) r = _
    rw [dictGet_set_ne _ kv.1 r _ hne]
    by_cases hs : (dictGet st.riders_data kv.1).isSome
    · rw [if_pos hs]
    · rw [if_neg hs, dictGet_set_ne _ kv.1 r _ hne]

theorem fill_zero_step_self (k : Nat) (date : String)
    (rsp : List (String × RiderBreakdown)) (st : ProcState)
    (kv : String × Int) (hnone : dictGet rsp kv.1 = none) :
    dictGet (fill_zero_step k date rsp st kv).riders_data kv.1 =
      some ⟨(dictGetD st.riders_data kv.1 ⟨0, []⟩).total_points,
        dictSet (dictGetD st.riders_data kv.1 ⟨0, []⟩).stages k
          ⟨date, 0, [], 0, dictGetD st.cumulative_rider_points kv.1 0⟩⟩ := by
  unfold fill_zero_step
  rw [if_neg (by simp [hnone])]
  show dictGet (dictSet _ kv.1 _) kv.1 = _
  rw [dictGet_set_self]
  by_cases hs : (dictGet st.riders_data kv.1).isSome
  · rw [if_pos hs]
  · rw [if_neg hs, dictGetD_set_self]
    have hn : dictGet st.riders_data kv.1 = none := by
      cases hg : dictGet st.riders_data kv.1
      · rfl
      · rw [hg] at hs; simp at hs
    rw [show dictGetD st.riders_data kv.1 (⟨0, []⟩ : RiderInfo) = ⟨0, []⟩
      from by unfold dictGetD; rw [hn]; rfl]

theorem fill_fold_cum (k : Nat) (date : String)
    (rsp : List (String × RiderBreakdown)) (L : List (String × Int))
    (st : ProcState) :
    (L.foldl (fill_zero_step k date rsp) st).cumulative_rider_points =
      st.cumulative_rider_points := by
  refine foldl_preserve
    (fun s => s.cumulative_rider_points = st.cumulative_rider_points)
    _ L st rfl ?_
  intro a kv _ ha
  rw [fill_zero_step_cum]
  exact ha

theorem fill_fold_get_other (k : Nat) (date : String)
    (rsp : List (String × RiderBreakdown)) :
    ∀ (L : List (String × Int)) (st : ProcState) (r : String),
      (∀ kv ∈ L, kv.1 ≠ r) →
      dictGet ((L.foldl (fill_zero_step k date rsp) st)).riders_data r =
        dictGet st.riders_data r := by
  intro L
  induction L with
  | nil => intro st r _; rfl
  | cons kv rest ih =>
    intro st r hL
    simp only [List.foldl_cons]
    rw [ih _ r (fun kv' h => hL kv' (List.mem_cons_of_mem _ h))]
    exact fill_zero_step_ne k date rsp st kv r (hL kv (by simp))

theorem fill_fold_get_mem (k : Nat) (date : String)
    (rsp : List (String × RiderBreakdown)) :
    ∀ (L : List (String × Int)) (st : ProcState) (r : String),
      (L.map Prod.fst).Nodup → r ∈ L.map Prod.fst → dictGet rsp r = none →
      dictGet ((L.foldl (fill_zero_step k date rsp)) st).riders_data r =
        some ⟨(dictGetD st.riders_data r ⟨0, []⟩).total_points,
          dictSet (dictGetD st.riders_data r ⟨0, []⟩).stages k
            ⟨date, 0, [], 0, dictGetD st.cumulative_rider_points r 0⟩⟩ := by
  intro L
  induction L with
  | nil => intro st r _ hmem; simp at hmem
  | cons kv rest ih =>
    intro st r hnd hmem hnone
    simp only [List.map_cons, List.nodup_cons] at hnd
    simp only [List.foldl_cons]
    by_cases hkr : kv.1 = r
    · subst hkr
      have hother : ∀ kv' ∈ rest, kv'.1 ≠ kv.1 := by
        intro kv' h hh
        exact hnd.1 (hh ▸ List.mem_map_of_mem Prod.fst h)
      rw [fill_fold_get_other k date rsp rest _ kv.1 hother]
      rw [fill_zero_step_self k date rsp st kv hnone]
    · have hmem' : r ∈ rest.map Prod.fst := by
        rcases List.mem_cons.1 hmem with h | h
        · exact absurd h.symm hkr
        · exact h
      have hrd := fill_zero_step_ne k date rsp st kv r (fun hh => hkr hh)
      have hcum := fill_zero_step_cum k date rsp st kv
      rw [ih _ r hnd.2 hmem' hnone]
      unfold dictGetD
      rw [hrd, hcum]

theorem fill_fold_keys_nodup (k : Nat) (date : String)
    (rsp : List (String × RiderBreakdown)) (L : List (String × Int))
    (st : ProcState) (h1 : (dictKeys st.riders_data).Nodup)
    (h2 : (dictKeys st.cumulative_rider_points).Nodup) :
    (dictKeys ((L.foldl (fill_zero_step k date rsp)) st).riders_data).Nodup ∧
      (dictKeys ((L.foldl (fill_zero_step k date rsp))
        st).cumulative_rider_points).Nodup := by
  refine foldl_preserve
    (fun s => (dictKeys s.riders_data).Nodup ∧
      (dictKeys s.cumulative_rider_points).Nodup)
    _ L st ⟨h1, h2⟩ ?_
  intro a kv _ ha
  rw [fill_zero_step_cum]
  refine ⟨?_, ha.2⟩
  unfold fill_zero_step
  by_cases hb : (dictGet rsp kv.1).isSome
  · rw [if_pos hb]; exact ha.1
  · rw [if_neg hb]
    show (dictKeys (dictSet _ kv.1 _)).Nodup
    apply dictKeys_set_nodup
    by_cases hs : (dictGet a.riders_data kv.1).isSome
    · rw [if_pos hs]; exact ha.1
    · rw [if_neg hs]; exact dictKeys_set_nodup _ _ _ ha.1

theorem process_stage_rider_components (cfg : ProcConfig) (now : String)
    (st : ProcState) (k : Nat) (sr : StageRaw) :
    (process_stage cfg now st k sr).riders_data =
        (fill_zero_entries k (sr.stage_date.getD now) (stage_rsp sr)
          (update_rider_data k (sr.stage_date.getD now) (stage_rsp sr)
            st)).riders_data ∧
      (process_stage cfg now st k sr).cumulative_rider_points =
        (fill_zero_entries k (sr.stage_date.getD now) (stage_rsp sr)
          (update_rider_data k (sr.stage_date.getD now) (stage_rsp sr)
            st)).cumulative_rider_points :=
  ⟨rfl, rfl⟩

theorem head?_append_of_ne_nil {α : Type} (l t : List α) (h : l ≠ []) :
    (l ++ t).head? = l.head? := by
  cases l with
  | nil => exact absurd rfl h
  | cons a l' => rfl

theorem dictGet_append_last {κ α : Type} [DecidableEq κ]
    (d : List (κ × α)) (k : κ) (v : α) (h : dictGet d k = none) :
    dictGet (d ++ [(k, v)]) k = some v := by
  rw [dictGet_append, h]
  simp [dictGet]

theorem dictGet_append_other {κ α : Type} [DecidableEq κ]
    (d : List (κ × α)) (k k' : κ) (v : α) (h : k ≠ k') :
    dictGet (d ++ [(k, v)]) k' = dictGet d k' := by
  rw [dictGet_append]
  cases hg : dictGet d k' with
  | none => simp [dictGet, h]
  | some w => rfl

theorem suffix_append_right {α : Type} (xs ys : List α) (a : α)
    (h : xs <:+ ys) : xs ++ [a] <:+ ys ++ [a] := by
  obtain ⟨t, ht⟩ := h
  exact ⟨t, by rw [← ht, List.append_assoc]⟩

theorem fill_fold_get_skip (k : Nat) (date : String)
    (rsp : List (String × RiderBreakdown)) :
    ∀ (L : List (String × Int)) (st : ProcState) (r : String),
      (dictGet rsp r).isSome →
      dictGet ((L.foldl (fill_zero_step k date rsp)) st).riders_data r =
        dictGet st.riders_data r := by
  intro L
  induction L with
  | nil => intro st r _; rfl
  | cons kv rest ih =>
    intro st r hb
    simp only [List.foldl_cons]
    rw [ih _ r hb]
    by_cases hkr : kv.1 = r
    · unfold fill_zero_step
      rw [if_pos (by rwa [hkr])]
    · exact fill_zero_step_ne k date rsp st kv r hkr

theorem add_finish_points_keys_nodup (rows : List FinisherRow)
    (d : List (String × RiderBreakdown)) (hd : (dictKeys d).Nodup) :
    (dictKeys (add_finish_points d rows)).Nodup := by
  unfold add_finish_points
  refine foldl_preserve (fun d => (dictKeys d).Nodup) _ rows d hd ?_
  intro a row _ ha
  exact dictKeys_set_nodup _ _ _ ha

theorem add_jersey_points_keys_nodup (jersey_holders : List (String × String))
    (d : List (String × RiderBreakdown)) (hd : (dictKeys d).Nodup) :
    (dictKeys (add_jersey_points d jersey_holders)).Nodup := by
  unfold add_jersey_points
  refine foldl_preserve (fun d => (dictKeys d).Nodup) _ jersey_holders d hd ?_
  intro a jh _ ha
  by_cases hg : 0 < dictGetD SCORING_RULES
      (if jh.1 = "combative_rider" then jh.1 else jh.1 ++ "_jersey") 0 ∧
      jh.2 ≠ "" ∧ jh.2 ≠ "N/A"
  · rw [if_pos hg]
    exact dictKeys_set_nodup _ _ _ ha
  · rw [if_neg hg]
    exact ha

theorem stage_rsp_keys_nodup (sr : StageRaw) :
    (dictKeys (stage_rsp sr)).Nodup := by
  unfold stage_rsp calculate_rider_stage_points
  exact add_jersey_points_keys_nodup _ _
    (add_finish_points_keys_nodup _ [] (by simp [dictKeys]))

theorem history_append (processed : List (Nat × StageRaw)) (k : Nat)
    (sr : StageRaw) (r : String) (l : List (Nat × RiderStageEntry))
    (c : Int) (e : RiderStageEntry)
    (hsuf : l.map Prod.fst <:+ processed.map Prod.fst)
    (hne : l ≠ [])
    (hlast : ∃ last, l.getLast? = some last ∧ last.2.cumulative_total = c)
    (hchain : cumChain l)
    (hhead : ∀ h, l.head? = some h →
      h.2.cumulative_total = h.2.stage_total)
    (hnn : ∀ kv ∈ l, 0 ≤ kv.2.stage_total)
    (hmatch : ∀ k' sr', (k', sr') ∈ processed → ∀ e',
      dictGet l k' = some e' → EntryMatches r sr' e')
    (hk : k ∉ processed.map Prod.fst)
    (hecum : e.cumulative_total = c + e.stage_total)
    (henn : 0 ≤ e.stage_total)
    (hematch : EntryMatches r sr e) :
    (dictSet l k e).map Prod.fst <:+ (processed ++ [(k, sr)]).map Prod.fst ∧
      dictSet l k e ≠ [] ∧
      (∃ last, (dictSet l k e).getLast? = some last ∧
        last.2.cumulative_total = e.cumulative_total) ∧
      cumChain (dictSet l k e) ∧
      (∀ h, (dictSet l k e).head? = some h →
        h.2.cumulative_total = h.2.stage_total) ∧
      (∀ kv ∈ dictSet l k e, 0 ≤ kv.2.stage_total) ∧
      (∀ k' sr', (k', sr') ∈ processed ++ [(k, sr)] → ∀ e',
        dictGet (dictSet l k e) k' = some e' → EntryMatches r sr' e') := by
  have hkl : k ∉ l.map Prod.fst := fun hmem => hk (hsuf.subset hmem)
  have hget : dictGet l k = none := by
    rw [dictGet_eq_none_iff]
    exact hkl
  have hset : dictSet l k e = l ++ [(k, e)] := dictSet_append l k e hget
  rw [hset]
  refine ⟨?_, by simp, ?_, ?_, ?_, ?_, ?_⟩
  · rw [List.map_append, List.map_append]
    exact suffix_append_right _ _ _ hsuf
  · exact ⟨(k, e), List.getLast?_concat l, rfl⟩
  · rw [cumChain, List.chain'_append]
    refine ⟨hchain, List.chain'_singleton _, ?_⟩
    intro x hx y hy
    obtain ⟨last, hl, hlc⟩ := hlast
    rw [hl] at hx
    simp at hx hy
    rw [← hx, ← hy]
    show e.cumulative_total = last.2.cumulative_total + e.stage_total
    rw [hlc]
    exact hecum
  · intro h hh
    rw [head?_append_of_ne_nil l _ hne] at hh
    exact hhead h hh
  · intro kv hkv
    rcases List.mem_append.1 hkv with h | h
    · exact hnn kv h
    · simp at h
      rw [h]
      exact henn
  · intro k' sr' hp e' he'
    rcases List.mem_append.1 hp with hp | hp
    · have hne' : k ≠ k' := by
        intro hh
        exact hk (hh ▸ List.mem_map_of_mem Prod.fst hp)
      rw [dictGet_append_other l k k' e hne'] at he'
      exact hmatch k' sr' hp e' he'
    · simp at hp
      rw [hp.1] at he'
      rw [dictGet_append_last l k e hget] at he'
      cases he'
      rw [hp.2]
      exact hematch

theorem StInv_congr (p : List (Nat × StageRaw)) (st' st'' : ProcState)
    (h1 : st'.riders_data = st''.riders_data)
    (h2 : st'.cumulative_rider_points = st''.cumulative_rider_points)
    (h : StInv p st'') : StInv p st' := by
  obtain ⟨a, b, c⟩ := h
  refine ⟨h1 ▸ a, h2 ▸ b, fun r => ?_⟩
  have hc := c r
  unfold RiderInv at hc ⊢
  rw [h1, h2]
  exact hc

theorem StInv_step2 (processed : List (Nat × StageRaw)) (st : ProcState)
    (k : Nat) (sr : StageRaw) (date : String)
    (hinv : StInv processed st) (hk : k ∉ processed.map Prod.fst) :
    StInv (processed ++ [(k, sr)])
      (fill_zero_entries k date (stage_rsp sr)
        (update_rider_data k date (stage_rsp sr) st)) := by
  obtain ⟨hnd1, hnd2, hri⟩ := hinv
  set st1 := update_rider_data k date (stage_rsp sr) st with hst1
  have hnd1' := update_rider_data_keys_nodup k date (stage_rsp sr) st hnd1 hnd2
  rw [← hst1] at hnd1'
  have hfold : fill_zero_entries k date (stage_rsp sr) st1 =
      st1.cumulative_rider_points.foldl
        (fill_zero_step k date (stage_rsp sr)) st1 := rfl
  have hnd2' := fill_fold_keys_nodup k date (stage_rsp sr)
    st1.cumulative_rider_points st1 hnd1'.1 hnd1'.2
  have hcum2 : (fill_zero_entries k date (stage_rsp sr)
      st1).cumulative_rider_points = st1.cumulative_rider_points := by
    rw [hfold]
    exact fill_fold_cum k date (stage_rsp sr) _ _
  refine ⟨by rw [hfold]; exact hnd2'.1, by rw [hcum2]; exact hnd1'.2, ?_⟩
  intro r
  unfold RiderInv
  rw [hcum2]
  cases hb : dictGet (stage_rsp sr) r with
  | some b =>
    have hsome : (dictGet (stage_rsp sr) r).isSome = true := by
      rw [hb]; rfl
    have hskip : dictGet (fill_zero_entries k date (stage_rsp sr)
        st1).riders_data r = dictGet st1.riders_data r := by
      rw [hfold]
      exact fill_fold_get_skip k date (stage_rsp sr) _ st1 r hsome
    rw [hskip]
    have hupd := update_rider_data_get_some k date (stage_rsp sr) st r b
      (stage_rsp_keys_nodup sr) hb
    rw [← hst1] at hupd
    rw [hupd.1, hupd.2]
    have hbnn : 0 ≤ b.stage_total := stage_rsp_nonneg sr (r, b) (dictGet_mem hb)
    have hem : EntryMatches r sr
        ⟨date, b.stage_finish_points, b.jersey_points, b.stage_total,
          dictGetD st.cumulative_rider_points r 0 + b.stage_total⟩ := by
      unfold EntryMatches
      rw [hb]
      exact ⟨rfl, rfl, rfl⟩
    cases hrd : dictGet st.riders_data r with
    | some info =>
      cases hcm : dictGet st.cumulative_rider_points r with
      | some c0 =>
        have hold := hri r
        unfold RiderInv at hold
        rw [hrd, hcm] at hold
        obtain ⟨htot, hsuf, hne, hlast, hchain, hhead, hnn, hmatch⟩ := hold
        have hgd1 : dictGetD st.cumulative_rider_points r 0 = c0 := by
          unfold dictGetD; rw [hcm]; rfl
        have hgd2 : dictGetD st.riders_data r ⟨0, []⟩ = info := by
          unfold dictGetD; rw [hrd]; rfl
        rw [hgd1, hgd2]
        have happ := history_append processed k sr r info.stages c0
          ⟨date, b.stage_finish_points, b.jersey_points, b.stage_total,
            c0 + b.stage_total⟩
          hsuf hne hlast hchain hhead hnn hmatch hk rfl hbnn
          (by rw [← hgd1]; exact hem)
        exact ⟨rfl, happ⟩
      | none =>
        have hold := hri r
        unfold RiderInv at hold
        rw [hrd, hcm] at hold
        exact hold.elim
    | none =>
      cases hcm : dictGet st.cumulative_rider_points r with
      | some c0 =>
        have hold := hri r
        unfold RiderInv at hold
        rw [hrd, hcm] at hold
        exact hold.elim
      | none =>
        have hgd1 : dictGetD st.cumulative_rider_points r 0 = 0 := by
          unfold dictGetD; rw [hcm]; rfl
        have hgd2 : dictGetD st.riders_data r ⟨0, []⟩ = ⟨0, []⟩ := by
          unfold dictGetD; rw [hrd]; rfl
        rw [hgd1, hgd2]
        refine ⟨rfl, ?_, by simp [dictSet], ?_, ?_, ?_, ?_, ?_⟩
        · show [(k, _)].map Prod.fst <:+ _
          rw [List.map_append]
          exact List.suffix_append _ _
        · exact ⟨(k, ⟨date, b.stage_finish_points, b.jersey_points,
            b.stage_total, 0 + b.stage_total⟩), rfl, rfl⟩
        · exact List.chain'_singleton _
        · intro h hh
          cases hh
          show (0 : Int) + b.stage_total = b.stage_total
          omega
        · intro kv hkv
          simp [dictSet] at hkv
          rw [hkv]
          exact hbnn
        · intro k' sr' hp e' he'
          rcases List.mem_append.1 hp with hp | hp
          · have hne' : k ≠ k' := by
              intro hh
              exact hk (hh ▸ List.mem_map_of_mem Prod.fst hp)
            simp [dictSet, dictGet, hne'] at he'
          · simp at hp
            rw [hp.1] at he'
            simp [dictSet, dictGet] at he'
            rw [hp.2, ← he']
            rw [← hgd1] at hem
            exact hem
  | none =>
    cases hcm : dictGet st.cumulative_rider_points r with
    | some c0 =>
      cases hrd : dictGet st.riders_data r with
      | none =>
        have hold := hri r
        unfold RiderInv at hold
        rw [hrd, hcm] at hold
        exact hold.elim
      | some info =>
        have hold := hri r
        unfold RiderInv at hold
        rw [hrd, hcm] at hold
        obtain ⟨htot, hsuf, hne, hlast, hchain, hhead, hnn, hmatch⟩ := hold
        have hupd := update_rider_data_get_none k date (stage_rsp sr) st r hb
        rw [← hst1] at hupd
        have hcum1 : dictGet st1.cumulative_rider_points r = some c0 := by
          rw [hupd.2, hcm]
        have hmemkeys : r ∈ st1.cumulative_rider_points.map Prod.fst :=
          mem_keys_of_get hcum1
        have hfillmem : dictGet (fill_zero_entries k date (stage_rsp sr)
            st1).riders_data r =
            some ⟨(dictGetD st1.riders_data r ⟨0, []⟩).total_points,
              dictSet (dictGetD st1.riders_data r ⟨0, []⟩).stages k
                ⟨date, 0, [], 0,
                  dictGetD st1.cumulative_rider_points r 0⟩⟩ := by
          rw [hfold]
          exact fill_fold_get_mem k date (stage_rsp sr) _ st1 r hnd1'.2
            hmemkeys hb
        have hgd2 : dictGetD st1.riders_data r ⟨0, []⟩ = info := by
          unfold dictGetD; rw [hupd.1, hrd]; rfl
        have hgd1 : dictGetD st1.cumulative_rider_points r 0 = c0 := by
          unfold dictGetD; rw [hcum1]; rfl
        rw [hfillmem, hgd1, hgd2, hcum1]
        have hem : EntryMatches r sr (⟨date, 0, [], 0, c0⟩ :
            RiderStageEntry) := by
          unfold EntryMatches
          rw [hb]
          exact ⟨rfl, rfl, rfl⟩
        have happ := history_append processed k sr r info.stages c0
          ⟨date, 0, [], 0, c0⟩ hsuf hne hlast hchain hhead hnn hmatch hk
          (by show c0 = c0 + 0; omega) le_rfl hem
        exact ⟨htot, happ⟩
    | none =>
      cases hrd : dictGet st.riders_data r with
      | some info =>
        have hold := hri r
        unfold RiderInv at hold
        rw [hrd, hcm] at hold
        exact hold.elim
      | none =>
        have hupd := update_rider_data_get_none k date (stage_rsp sr) st r hb
        rw [← hst1] at hupd
        have hcum1 : dictGet st1.cumulative_rider_points r = none := by
          rw [hupd.2, hcm]
        have hnotmem : ∀ kv ∈ st1.cumulative_rider_points, kv.1 ≠ r := by
          intro kv hkv hh
          have hmem : r ∈ dictKeys st1.cumulative_rider_points :=
            hh ▸ List.mem_map_of_mem Prod.fst hkv
          exact (dictGet_eq_none_iff _ _).1 hcum1 hmem
        have hother : dictGet (fill_zero_entries k date (stage_rsp sr)
            st1).riders_data r = dictGet st1.riders_data r := by
          rw [hfold]
          exact fill_fold_get_other k date (stage_rsp sr) _ st1 r hnotmem
        rw [hother, hupd.1, hrd, hcum1]
        trivial

theorem StInv_step (cfg : ProcConfig) (now : String)
    (processed : List (Nat × StageRaw)) (st : ProcState) (k : Nat)
    (sr : StageRaw) (hinv : StInv processed st)
    (hk : k ∉ processed.map Prod.fst) :
    StInv (processed ++ [(k, sr)]) (process_stage cfg now st k sr) := by
  have hcomp := process_stage_rider_components cfg now st k sr
  exact StInv_congr _ _ _ hcomp.1 hcomp.2
    (StInv_step2 processed st k sr (sr.stage_date.getD now) hinv hk)

theorem StInv_run (cfg : ProcConfig) (now : String) :
    ∀ (stages processed : List (Nat × StageRaw)) (st : ProcState),
      StInv processed st → ((processed ++ stages).map Prod.fst).Nodup →
      StInv (processed ++ stages)
        (stages.foldl (fun st s => process_stage cfg now st s.1 s.2) st) := by
  intro stages
  induction stages with
  | nil =>
    intro processed st hinv _
    simpa using hinv
  | cons s rest ih =>
    intro processed st hinv hnd
    have hk : s.1 ∉ processed.map Prod.fst := by
      intro hmem
      rw [List.map_append] at hnd
      exact List.disjoint_of_nodup_append hnd hmem (by simp)
    have hstep := StInv_step cfg now processed st s.1 s.2 hinv hk
    have hstep' : StInv (processed ++ [(s.1, s.2)])
        (process_stage cfg now st s.1 s.2) := hstep
    have := ih (processed ++ [(s.1, s.2)])
      (process_stage cfg now st s.1 s.2) hstep'
      (by rwa [List.append_assoc, List.singleton_append])
    rw [List.append_assoc, List.singleton_append] at this
    simpa using this

theorem StInv_process_stages (cfg : ProcConfig) (now : String)
    (stages : List (Nat × StageRaw))
    (h : (stages.map Prod.fst).Nodup) :
    StInv stages (process_stages cfg now stages) := by
  have hinit : StInv [] initState := by
    refine ⟨by simp [initState, dictKeys], by simp [initState, dictKeys],
      fun r => ?_⟩
    unfold RiderInv
    rw [show dictGet initState.riders_data r = none from rfl,
      show dictGet initState.cumulative_rider_points r = none from rfl]
    trivial
  have := StInv_run cfg now stages [] initState hinit (by simpa using h)
  simpa using this

theorem cumChain_mono :
    ∀ (l : List (Nat × RiderStageEntry)), cumChain l →
      (∀ kv ∈ l, 0 ≤ kv.2.stage_total) →
      List.Chain'
        (fun a b => a.2.cumulative_total ≤ b.2.cumulative_total) l := by
  intro l
  induction l with
  | nil => intro _ _; exact List.chain'_nil
  | cons a t ih =>
    intro hc hnn
    cases t with
    | nil => exact List.chain'_singleton _
    | cons b t' =>
      rw [cumChain, List.chain'_cons] at hc
      rw [List.chain'_cons]
      refine ⟨?_, ih hc.2 (fun kv h => hnn kv (List.mem_cons_of_mem _ h))⟩
      have hb : 0 ≤ b.2.stage_total := hnn b (by simp)
      omega

/-- Claim C3: for every rider in the processed history, each recorded
`cumulative_total` equals the previous stage's recorded cumulative total
plus the entry's own `stage_total` (the first entry equals its own
`stage_total`, cumulating from 0); every `stage_total` is non-negative,
so the recorded cumulative totals are monotone non-decreasing. -/
theorem C3_cumulative_monotone (cfg : ProcConfig) (now : String)
    (stages : List (Nat × StageRaw))
    (hnd : (stages.map Prod.fst).Nodup) (r : String) (info : RiderInfo)
    (hr : dictGet (process_stages cfg now stages).riders_data r =
      some info) :
    cumChain info.stages ∧
      (∀ e, info.stages.head? = some e →
        e.2.cumulative_total = e.2.stage_total) ∧
      (∀ kv ∈ info.stages, 0 ≤ kv.2.stage_total) ∧
      List.Chain'
        (fun a b => a.2.cumulative_total ≤ b.2.cumulative_total)
        info.stages := by
  have hinv := StInv_process_stages cfg now stages hnd
  have hri := hinv.2.2 r
  unfold RiderInv at hri
  rw [hr] at hri
  cases hcm : dictGet
      (process_stages cfg now stages).cumulative_rider_points r with
  | none => rw [hcm] at hri; exact hri.elim
  | some c =>
    rw [hcm] at hri
    obtain ⟨_, _, _, _, hchain, hhead, hnn, _⟩ := hri
    exact ⟨hchain, hhead, hnn, cumChain_mono _ hchain hnn⟩

/-- Claim C4: every rider appearing in the processed history has exactly
one entry per processed stage from their first appearance through the
last processed stage (the entry keys are a duplicate-free suffix of the
processed stage numbers), and each stage in which the rider did not
score holds the zero entry — 0 finish points, no jersey points,
stage total 0, and a cumulative total unchanged from the previous
entry. -/
theorem C4_dense_history (cfg : ProcConfig) (now : String)
    (stages : List (Nat × StageRaw))
    (hnd : (stages.map Prod.fst).Nodup) (r : String) (info : RiderInfo)
    (hr : dictGet (process_stages cfg now stages).riders_data r =
      some info) :
    info.stages.map Prod.fst <:+ stages.map Prod.fst ∧
      info.stages ≠ [] ∧
      (info.stages.map Prod.fst).Nodup ∧
      (∀ k sr, (k, sr) ∈ stages → ∀ e, dictGet info.stages k = some e →
        dictGet (stage_rsp sr) r = none →
          e.stage_finish_points = 0 ∧ e.jersey_points = [] ∧
            e.stage_total = 0) ∧
      List.Chain'
        (fun a b => b.2.stage_total = 0 →
          b.2.cumulative_total = a.2.cumulative_total) info.stages := by
  have hinv := StInv_process_stages cfg now stages hnd
  have hri := hinv.2.2 r
  unfold RiderInv at hri
  rw [hr] at hri
  cases hcm : dictGet
      (process_stages cfg now stages).cumulative_rider_points r with
  | none => rw [hcm] at hri; exact hri.elim
  | some c =>
    rw [hcm] at hri
    obtain ⟨_, hsuf, hne, _, hchain, _, _, hmatch⟩ := hri
    refine ⟨hsuf, hne, hnd.sublist hsuf.sublist, ?_, ?_⟩
    · intro k sr hmem e he hnone
      have := hmatch k sr hmem e he
      unfold EntryMatches at this
      rw [hnone] at this
      exact this
    · refine List.Chain'.imp ?_ hchain
      intro a b hab hzero
      rw [hab, hzero]
      omega

/-- A two-stage run with no participants: rider `"A"` wins stage 1 and
is absent from stage 2; rider `"B"` finishes third in stage 2. -/
def cfgW : ProcConfig := ⟨[], fun _ => none⟩

/-- Stage 1 of the witness run. -/
def srW1 : StageRaw :=
  ⟨some "d1", [⟨"A", 1⟩], none, none, none, none, none, []⟩

/-- Stage 2 of the witness run. -/
def srW2 : StageRaw :=
  ⟨some "d2", [⟨"B", 3⟩], none, none, none, none, none, []⟩

/-- The history of rider `"A"` in the witness run: 25 points at stage 1,
a zero entry at stage 2. -/
def infoW : RiderInfo :=
  ⟨25, [(1, ⟨"d1", 25, [], 25, 25⟩), (2, ⟨"d2", 0, [], 0, 25⟩)]⟩

/-- Witness for C3 on the concrete two-stage run, rider `"A"`. -/
theorem C3_cumulative_monotone_witness :
    cumChain infoW.stages ∧
      (∀ e, infoW.stages.head? = some e →
        e.2.cumulative_total = e.2.stage_total) ∧
      (∀ kv ∈ infoW.stages, 0 ≤ kv.2.stage_total) ∧
      List.Chain'
        (fun a b => a.2.cumulative_total ≤ b.2.cumulative_total)
        infoW.stages :=
  C3_cumulative_monotone cfgW "now" [(1, srW1), (2, srW2)] (by decide)
    "A" infoW rfl

/-- Witness for C4 on the concrete two-stage run, rider `"A"` (whose
stage-2 entry is the zero entry). -/
theorem C4_dense_history_witness :
    infoW.stages.map Prod.fst <:+ [(1, srW1), (2, srW2)].map Prod.fst ∧
      infoW.stages ≠ [] ∧
      (infoW.stages.map Prod.fst).Nodup ∧
      (∀ k sr, (k, sr) ∈ [(1, srW1), (2, srW2)] → ∀ e,
        dictGet infoW.stages k = some e →
        dictGet (stage_rsp sr) "A" = none →
          e.stage_finish_points = 0 ∧ e.jersey_points = [] ∧
            e.stage_total = 0) ∧
      List.Chain'
        (fun a b => b.2.stage_total = 0 →
          b.2.cumulative_total = a.2.cumulative_total) infoW.stages :=
  C4_dense_history cfgW "now" [(1, srW1), (2, srW2)] (by decide) "A"
    infoW rfl

end TdFPool
